import Mathlib

/-!
Verification of the LicenseChain Ethereum SDK core (network resolution,
retry policy, timeout guard, error normalization, transaction facade,
metadata serialization) against its natural-language specification.

The TypeScript sources are shallowly embedded:
* JavaScript dynamic values relevant to control flow (optional fields,
  truthiness of `x || d` and `a && b`) are made explicit with `Option` and
  truthiness helpers.
* Asynchronous operations are modelled as pure functions of their resolved
  inputs; an operation that may be invoked repeatedly is a function from the
  attempt index to its outcome; promise rejection values are modelled by an
  explicit sum (`JsRejection`), with `Option` used where the rejected value
  may be the JavaScript `undefined` value.
* BigInt / number quantities are `Nat`/`Int` (the code manipulates exact
  integers: gas quantities, chain ids, token ids, timestamps).
* `JSON.stringify` / `JSON.parse` (the JavaScript runtime functions the SDK
  uses for metadata) are modelled by an executable printer and
  recursive-descent parser over a JSON value type whose numbers are exact
  integers, with JS object-key collision (last write wins, first position
  kept) modelled explicitly.
-/

set_option linter.unusedVariables false

/-- JavaScript `v || d` for an optional string: `undefined` and `""` are falsy. -/
def jsOrString (v : Option String) (d : String) : String :=
  match v with
  | none => d
  | some s => if s = "" then d else s

/-- JavaScript `v || d` for an optional bigint/number: `undefined` and `0` are falsy. -/
def jsOrNat (v : Option Nat) (d : Nat) : Nat :=
  match v with
  | none => d
  | some n => if n = 0 then d else n

/-- JavaScript truthiness of an optional number (`undefined` and `0` are falsy). -/
def truthyNat (v : Option Nat) : Bool :=
  match v with
  | none => false
  | some n => n != 0

/-- JavaScript truthiness of an optional string (`undefined` and `""` are falsy). -/
def truthyStr (v : Option String) : Bool :=
  match v with
  | none => false
  | some s => s != ""

/-- Decimal digit character, `0 ≤ n ≤ 9` (inputs above 9 clamp to `'9'`). -/
def digitChar (n : Nat) : Char :=
  match n with
  | 0 => '0' | 1 => '1' | 2 => '2' | 3 => '3' | 4 => '4'
  | 5 => '5' | 6 => '6' | 7 => '7' | 8 => '8' | _ => '9'

/-- Fuel-indexed digit expansion of a natural number, most significant first.
Structural on the fuel so that it evaluates inside the kernel. -/
def natDigitsGo : Nat → Nat → List Char
  | 0, _ => []
  | fuel + 1, n => if n < 10 then [digitChar n] else natDigitsGo fuel (n / 10) ++ [digitChar (n % 10)]

/-- Decimal digit list of a natural number, as `Number.prototype.toString` /
`BigInt.prototype.toString` render a non-negative integer. -/
def natDigits (n : Nat) : List Char := natDigitsGo (n + 1) n

/-- Decimal string of a natural number (models JavaScript `.toString()` on a
non-negative integer / bigint). -/
def natToString (n : Nat) : String := String.mk (natDigits n)

/-- Decimal character list of an integer (models JavaScript `.toString()`). -/
def intChars (i : Int) : List Char :=
  if i < 0 then '-' :: natDigits i.natAbs else natDigits i.toNat

/-- Value of a list of decimal digit characters, most significant first. -/
def digitsToNat (ds : List Char) : Nat :=
  ds.foldl (fun acc c => acc * 10 + (c.toNat - 48)) 0

/-- Whether `pat` occurs as a contiguous substring of `hay`
(models JavaScript `String.prototype.includes`). -/
def containsSubstr (hay pat : String) : Bool :=
  hay.data.tails.any (fun t => pat.data.isPrefixOf t)

/-- The closed error taxonomy of `errors.ts` (`enum ErrorCodes`). -/
inductive ErrorCodes where
  | NETWORK_ERROR | RPC_ERROR | TIMEOUT_ERROR
  | TRANSACTION_FAILED | TRANSACTION_REVERTED | INSUFFICIENT_FUNDS | GAS_ESTIMATION_FAILED
  | CONTRACT_NOT_DEPLOYED | CONTRACT_NOT_VERIFIED | INVALID_CONTRACT_ADDRESS
  | INVALID_TOKEN_ID | LICENSE_NOT_FOUND | LICENSE_EXPIRED | LICENSE_REVOKED
  | LICENSE_ALREADY_EXISTS | INVALID_LICENSE_METADATA
  | UNAUTHORIZED | INSUFFICIENT_PERMISSIONS | ROLE_NOT_GRANTED
  | INVALID_ADDRESS | INVALID_NETWORK | INVALID_CONFIG | INVALID_METADATA
  | INSUFFICIENT_SIGNATURES | INVALID_SIGNATURE | SIGNATURE_TIMEOUT
  | UPGRADE_NOT_AUTHORIZED | INVALID_IMPLEMENTATION | UPGRADE_FAILED
  | UNKNOWN_ERROR | VALIDATION_ERROR | CONFIGURATION_ERROR
deriving DecidableEq

/-- A raw error value as produced by the ethers provider layer: an object with
an optional string `code` and an optional `message`. This is the shape
`fromEthersError` and `isRetryableError` inspect. -/
structure EthersErrorInput where
  code : Option String := none
  message : Option String := none
deriving DecidableEq

/-- A raw JSON-RPC error value: an object with an optional numeric `code`
and an optional `message`, as inspected by `fromRpcError`. -/
structure RpcErrorInput where
  code : Option Int := none
  message : Option String := none
deriving DecidableEq

/-- The `details` payload attached to a `LicenseChainError`; each constructor
mirrors one object literal the source stores there. -/
inductive ErrorDetails where
  | originalEthersError (error : EthersErrorInput)
  | originalRpcError (error : RpcErrorInput)
  | network (network : String)
  | address (address : String)
deriving DecidableEq

/-- The domain error type of `errors.ts` (`class LicenseChainError`):
a stable `code`, a human message, and the preserved original cause. -/
structure LicenseChainError where
  code : ErrorCodes
  message : String
  details : Option ErrorDetails := none
deriving DecidableEq

/-- `LicenseChainError.fromEthersError` (errors.ts lines 69-107): normalizes a
provider-layer error by its string `code`, preserving the original error under
`details.originalError`; unmatched causes map to `UNKNOWN_ERROR`. -/
def LicenseChainError.fromEthersError (error : EthersErrorInput) : LicenseChainError :=
  if error.code = some "INSUFFICIENT_FUNDS" then
    { code := ErrorCodes.INSUFFICIENT_FUNDS, message := "Insufficient funds for transaction",
      details := some (ErrorDetails.originalEthersError error) }
  else if error.code = some "UNPREDICTABLE_GAS_LIMIT" then
    { code := ErrorCodes.GAS_ESTIMATION_FAILED, message := "Gas estimation failed",
      details := some (ErrorDetails.originalEthersError error) }
  else if error.code = some "CALL_EXCEPTION" then
    { code := ErrorCodes.TRANSACTION_REVERTED, message := "Transaction reverted",
      details := some (ErrorDetails.originalEthersError error) }
  else if error.code = some "NETWORK_ERROR" then
    { code := ErrorCodes.NETWORK_ERROR, message := "Network error occurred",
      details := some (ErrorDetails.originalEthersError error) }
  else
    { code := ErrorCodes.UNKNOWN_ERROR, message := jsOrString error.message "Unknown error occurred",
      details := some (ErrorDetails.originalEthersError error) }

/-- `LicenseChainError.fromRpcError` (errors.ts lines 109-139): normalizes a
JSON-RPC error by its numeric `code`; unmatched causes map to `RPC_ERROR`. -/
def LicenseChainError.fromRpcError (error : RpcErrorInput) : LicenseChainError :=
  if error.code = some (-32603) then
    { code := ErrorCodes.RPC_ERROR, message := "Internal JSON-RPC error",
      details := some (ErrorDetails.originalRpcError error) }
  else if error.code = some (-32602) then
    { code := ErrorCodes.VALIDATION_ERROR, message := "Invalid parameters",
      details := some (ErrorDetails.originalRpcError error) }
  else if error.code = some (-32000) then
    { code := ErrorCodes.TRANSACTION_FAILED, message := "Transaction failed",
      details := some (ErrorDetails.originalRpcError error) }
  else
    { code := ErrorCodes.RPC_ERROR, message := jsOrString error.message "RPC error occurred",
      details := some (ErrorDetails.originalRpcError error) }

/-- `LicenseChainError.invalidNetwork` (errors.ts lines 149-155). Present in
the source but, notably, never invoked by `getNetworkConfig`. -/
def LicenseChainError.invalidNetwork (network : String) : LicenseChainError :=
  { code := ErrorCodes.INVALID_NETWORK, message := "Invalid network: " ++ network,
    details := some (ErrorDetails.network network) }

/-- A JavaScript promise-rejection / thrown value as observed by SDK callers:
either a plain `Error` (identified by its message) or a `LicenseChainError`. -/
inductive JsRejection where
  | genericError (message : String)
  | domainError (e : LicenseChainError)
deriving DecidableEq

/-- `NetworkConfig` (types.ts lines 52-57). -/
structure NetworkConfig where
  chainId : Nat
  rpcUrl : String
  explorerUrl : String
  name : String
deriving DecidableEq

/-- `getNetworkConfig` (utils.ts): resolves a network name, with the custom
branch guarded by JavaScript truthiness of both `chainId` and `rpcUrl`, and a
plain `Error` thrown for anything not found in the lookup table. -/
def getNetworkConfig (network : String) (rpcUrl : Option String) (chainId : Option Nat) :
    Except JsRejection NetworkConfig :=
  if network = "custom" ∧ truthyNat chainId ∧ truthyStr rpcUrl then
    Except.ok { chainId := chainId.getD 0, rpcUrl := rpcUrl.getD "",
                explorerUrl := "https://etherscan.io", name := "Custom Network" }
  else if network = "mainnet" then
    Except.ok { chainId := 1, rpcUrl := jsOrString rpcUrl "https://eth-mainnet.g.alchemy.com/v2/YOUR_KEY",
                explorerUrl := "https://etherscan.io", name := "Ethereum Mainnet" }
  else if network = "goerli" then
    Except.ok { chainId := 5, rpcUrl := jsOrString rpcUrl "https://eth-goerli.g.alchemy.com/v2/YOUR_KEY",
                explorerUrl := "https://goerli.etherscan.io", name := "Goerli Testnet" }
  else if network = "sepolia" then
    Except.ok { chainId := 11155111, rpcUrl := jsOrString rpcUrl "https://eth-sepolia.g.alchemy.com/v2/YOUR_KEY",
                explorerUrl := "https://sepolia.etherscan.io", name := "Sepolia Testnet" }
  else if network = "polygon" then
    Except.ok { chainId := 137, rpcUrl := jsOrString rpcUrl "https://polygon-mainnet.g.alchemy.com/v2/YOUR_KEY",
                explorerUrl := "https://polygonscan.com", name := "Polygon Mainnet" }
  else if network = "arbitrum" then
    Except.ok { chainId := 42161, rpcUrl := jsOrString rpcUrl "https://arb-mainnet.g.alchemy.com/v2/YOUR_KEY",
                explorerUrl := "https://arbiscan.io", name := "Arbitrum One" }
  else if network = "optimism" then
    Except.ok { chainId := 10, rpcUrl := jsOrString rpcUrl "https://opt-mainnet.g.alchemy.com/v2/YOUR_KEY",
                explorerUrl := "https://optimistic.etherscan.io", name := "Optimism" }
  else
    Except.error (JsRejection.genericError ("Unsupported network: " ++ network))

/-- `isRetryableError` (utils.ts lines 566-576): an error is retryable when its
`code` equals, or its `message` contains, one of the three transient codes. -/
def isRetryableError (error : EthersErrorInput) : Bool :=
  ["NETWORK_ERROR", "TIMEOUT_ERROR", "RPC_ERROR"].any (fun code =>
    error.code == some code ||
      (match error.message with
       | some m => containsSubstr m code
       | none => false))

/-- Observable outcome of one `retryWithBackoff` run: the settled value (with
`Except.error none` modelling rejection with the JavaScript `undefined` value),
the number of times the wrapped operation was invoked, and the total
milliseconds of scheduled backoff sleep. -/
structure RetryRun (E T : Type) where
  outcome : Except (Option E) T
  calls : Nat
  totalDelay : Nat

/-- The loop of `retryWithBackoff` (utils.ts lines 484-507), re-indexed by the
number of remaining iterations (`remaining = maxRetries - i`) so that the
recursion is structural: `remaining = 0` is loop exit, where the source throws
the never-assigned `lastError` (the JavaScript `undefined` value), and
`remaining = 1` is the last iteration (`i === maxRetries - 1`), where the
failure is rethrown without a sleep. -/
def retryGo {E T : Type} (fn : Nat → Except E T) (baseDelay : Nat) (i : Nat) :
    Nat → RetryRun E T
  | 0 => { outcome := Except.error none, calls := 0, totalDelay := 0 }
  | remaining + 1 =>
    match fn i with
    | Except.ok t => { outcome := Except.ok t, calls := 1, totalDelay := 0 }
    | Except.error e =>
      if remaining = 0 then
        { outcome := Except.error (some e), calls := 1, totalDelay := 0 }
      else
        let rest := retryGo fn baseDelay (i + 1) remaining
        { outcome := rest.outcome, calls := rest.calls + 1,
          totalDelay := rest.totalDelay + baseDelay * 2 ^ i }

/-- `retryWithBackoff` (utils.ts lines 484-507). The wrapped operation is a
function of the attempt index (attempt `i` of a stateful thunk); source
defaults are `maxRetries = 3`, `baseDelay = 1000`. -/
def retryWithBackoff {E T : Type} (fn : Nat → Except E T) (maxRetries : Nat) (baseDelay : Nat) :
    RetryRun E T :=
  retryGo fn baseDelay 0 maxRetries

/-- An asynchronous operation as raced by `withTimeout`: the time at which it
settles (`none`: it never settles) and the result it settles with. -/
structure TimedPromise (T : Type) where
  settlesAt : Option Nat
  outcome : Except JsRejection T

/-- `withTimeout` (utils.ts lines 512-522): races the promise against a
`setTimeout` that rejects with a plain `Error` after `timeoutMs`. The
operation wins exactly when it settles strictly before the timer (a tie is
resolved in the timer's favour here; no theorem depends on the tie). -/
def withTimeout {T : Type} (promise : TimedPromise T) (timeoutMs : Nat) : Except JsRejection T :=
  match promise.settlesAt with
  | none => Except.error (JsRejection.genericError "Operation timed out")
  | some t =>
    if t < timeoutMs then promise.outcome
    else Except.error (JsRejection.genericError "Operation timed out")

/-- JSON values as manipulated by the JavaScript runtime's `JSON.stringify` /
`JSON.parse`, which the SDK uses for license metadata. Numbers are exact
integers (the metadata's numeric field is a unix timestamp; within the safe
integer range JavaScript renders them in plain decimal); object fields keep
their insertion order. -/
inductive Json where
  | null : Json
  | bool (b : Bool) : Json
  | num (n : Int) : Json
  | str (s : String) : Json
  | arr (elems : List Json) : Json
  | obj (fields : List (String × Json)) : Json

/-- Hexadecimal digit character (lower case), `n < 16`. -/
def hexDigit (n : Nat) : Char :=
  match n with
  | 0 => '0' | 1 => '1' | 2 => '2' | 3 => '3' | 4 => '4'
  | 5 => '5' | 6 => '6' | 7 => '7' | 8 => '8' | 9 => '9'
  | 10 => 'a' | 11 => 'b' | 12 => 'c' | 13 => 'd' | 14 => 'e' | _ => 'f'

/-- Value of one hexadecimal digit character, upper or lower case. -/
def hexVal (c : Char) : Option Nat :=
  if '0' ≤ c ∧ c ≤ '9' then some (c.toNat - 48)
  else if 'a' ≤ c ∧ c ≤ 'f' then some (c.toNat - 87)
  else if 'A' ≤ c ∧ c ≤ 'F' then some (c.toNat - 55)
  else none

/-- How `JSON.stringify` escapes one character inside a string literal:
quote, backslash and the named control characters get two-character escapes,
all other control characters get a `\u00xx` escape, everything else is
emitted literally. -/
def escapeChar (c : Char) : List Char :=
  if c = '"' then ['\\', '"']
  else if c = '\\' then ['\\', '\\']
  else if c = '\n' then ['\\', 'n']
  else if c = '\r' then ['\\', 'r']
  else if c = '\t' then ['\\', 't']
  else if c.toNat = 8 then ['\\', 'b']
  else if c.toNat = 12 then ['\\', 'f']
  else if c.toNat < 32 then ['\\', 'u', '0', '0', hexDigit (c.toNat / 16), hexDigit (c.toNat % 16)]
  else [c]

/-- Escape every character of a string body. -/
def escapeList (cs : List Char) : List Char :=
  match cs with
  | [] => []
  | c :: rest => escapeChar c ++ escapeList rest

/-- A JSON string literal: quote, escaped body, quote. -/
def encodeString (s : String) : List Char :=
  '"' :: escapeList s.data ++ ['"']

mutual

/-- `JSON.stringify` with no indentation: the canonical compact rendering
the SDK produces before minting. -/
def Json.render : Json → List Char
  | Json.null => ['n', 'u', 'l', 'l']
  | Json.bool true => ['t', 'r', 'u', 'e']
  | Json.bool false => ['f', 'a', 'l', 's', 'e']
  | Json.num n => intChars n
  | Json.str s => encodeString s
  | Json.arr xs => '[' :: Json.renderElems xs ++ [']']
  | Json.obj fs => '{' :: Json.renderFields fs ++ ['}']

/-- Comma-separated rendering of array elements. -/
def Json.renderElems : List Json → List Char
  | [] => []
  | [x] => x.render
  | x :: y :: xs => x.render ++ ',' :: Json.renderElems (y :: xs)

/-- Comma-separated rendering of `"key":value` object members. -/
def Json.renderFields : List (String × Json) → List Char
  | [] => []
  | [(k, v)] => encodeString k ++ ':' :: v.render
  | (k, v) :: f :: fs => encodeString k ++ ':' :: v.render ++ ',' :: Json.renderFields (f :: fs)

end

/-- No duplicate keys in an object member list. -/
def nodupKeys : List (String × Json) → Bool
  | [] => true
  | (k, _) :: fs => !(fs.any (fun p => p.1 == k)) && nodupKeys fs

mutual

/-- Well-formed JSON value: every object, recursively, has distinct keys.
A value obtained from a live JavaScript object always satisfies this, since
a JavaScript object cannot hold two members with the same key. -/
def Json.wf : Json → Bool
  | Json.null => true
  | Json.bool _ => true
  | Json.num _ => true
  | Json.str _ => true
  | Json.arr xs => Json.wfElems xs
  | Json.obj fs => nodupKeys fs && Json.wfFields fs

/-- All array elements well-formed. -/
def Json.wfElems : List Json → Bool
  | [] => true
  | x :: xs => x.wf && Json.wfElems xs

/-- All object member values well-formed. -/
def Json.wfFields : List (String × Json) → Bool
  | [] => true
  | (_, v) :: fs => v.wf && Json.wfFields fs

end

/-- JavaScript object member update: assigning to an existing key overwrites
its value in place, otherwise the member is appended. -/
def setField : List (String × Json) → String → Json → List (String × Json)
  | [], k, v => [(k, v)]
  | (k', v') :: fs, k, v =>
    if k' = k then (k', v) :: fs else (k', v') :: setField fs k v

/-- Builds the JavaScript object resulting from a parsed member list:
members are assigned in parse order, so a duplicated key keeps its first
position but its last value, exactly as `JSON.parse` behaves. -/
def buildObject (fields : List (String × Json)) : List (String × Json) :=
  fields.foldl (fun acc kv => setField acc kv.1 kv.2) []

/-- JSON insignificant whitespace. -/
def jsWhitespace (c : Char) : Bool :=
  c = ' ' || c = '\t' || c = '\n' || c = '\r'

/-- Skip insignificant whitespace. -/
def skipWs (l : List Char) : List Char := l.dropWhile jsWhitespace

/-- String-literal body parser: consumes up to and including the closing
quote, undoing the escapes; rejects unescaped control characters, as
`JSON.parse` does. -/
def parseStringBody : List Char → Option (List Char × List Char)
  | [] => none
  | c :: rest =>
    if c = '"' then some ([], rest)
    else if c = '\\' then
      match rest with
      | [] => none
      | e :: rest1 =>
        if e = '"' then (parseStringBody rest1).map (fun p => ('"' :: p.1, p.2))
        else if e = '\\' then (parseStringBody rest1).map (fun p => ('\\' :: p.1, p.2))
        else if e = '/' then (parseStringBody rest1).map (fun p => ('/' :: p.1, p.2))
        else if e = 'n' then (parseStringBody rest1).map (fun p => ('\n' :: p.1, p.2))
        else if e = 'r' then (parseStringBody rest1).map (fun p => ('\r' :: p.1, p.2))
        else if e = 't' then (parseStringBody rest1).map (fun p => ('\t' :: p.1, p.2))
        else if e = 'b' then (parseStringBody rest1).map (fun p => (Char.ofNat 8 :: p.1, p.2))
        else if e = 'f' then (parseStringBody rest1).map (fun p => (Char.ofNat 12 :: p.1, p.2))
        else if e = 'u' then
          match rest1 with
          | h1 :: h2 :: h3 :: h4 :: rest2 =>
            match hexVal h1, hexVal h2, hexVal h3, hexVal h4 with
            | some a, some b, some c', some d =>
              (parseStringBody rest2).map
                (fun p => (Char.ofNat (a * 4096 + b * 256 + c' * 16 + d) :: p.1, p.2))
            | _, _, _, _ => none
          | _ => none
        else none
    else if c.toNat < 32 then none
    else (parseStringBody rest).map (fun p => (c :: p.1, p.2))

/-- Integer-numeral parser: an optional minus sign followed by a maximal
nonempty run of decimal digits (the fragment of JSON numbers that
`JSON.stringify` emits for exact integers). -/
def parseNumber (input : List Char) : Option (Json × List Char) :=
  match input with
  | [] => none
  | c :: rest =>
    if c = '-' then
      let ds := rest.takeWhile Char.isDigit
      if ds.isEmpty then none
      else some (Json.num (-(digitsToNat ds : Int)), rest.dropWhile Char.isDigit)
    else
      let ds := (c :: rest).takeWhile Char.isDigit
      if ds.isEmpty then none
      else some (Json.num ((digitsToNat ds : Int)), (c :: rest).dropWhile Char.isDigit)

mutual

/-- Recursive-descent JSON value parser (the integer-numeral fragment of
`JSON.parse`), fuel-indexed so that the recursion is structural and the
parser evaluates inside the kernel. Returns the value and the unconsumed
suffix. -/
def parseValue : Nat → List Char → Option (Json × List Char)
  | 0, _ => none
  | fuel + 1, input =>
    match skipWs input with
    | [] => none
    | c :: rest =>
      if c = 'n' then
        match rest with
        | 'u' :: 'l' :: 'l' :: r => some (Json.null, r)
        | _ => none
      else if c = 't' then
        match rest with
        | 'r' :: 'u' :: 'e' :: r => some (Json.bool true, r)
        | _ => none
      else if c = 'f' then
        match rest with
        | 'a' :: 'l' :: 's' :: 'e' :: r => some (Json.bool false, r)
        | _ => none
      else if c = '"' then
        (parseStringBody rest).map (fun p => (Json.str (String.mk p.1), p.2))
      else if c = '[' then
        match skipWs rest with
        | [] => none
        | c2 :: r =>
          if c2 = ']' then some (Json.arr [], r)
          else
            match parseElems fuel (c2 :: r) with
            | some (xs, r1) =>
              match skipWs r1 with
              | [] => none
              | c3 :: r2 => if c3 = ']' then some (Json.arr xs, r2) else none
            | none => none
      else if c = '{' then
        match skipWs rest with
        | [] => none
        | c2 :: r =>
          if c2 = '}' then some (Json.obj [], r)
          else
            match parseFields fuel (c2 :: r) with
            | some (fs, r1) =>
              match skipWs r1 with
              | [] => none
              | c3 :: r2 => if c3 = '}' then some (Json.obj (buildObject fs), r2) else none
            | none => none
      else if c = '-' ∨ c.isDigit then parseNumber (c :: rest)
      else none

/-- One-or-more comma-separated array elements; stops before the character
following the last element. -/
def parseElems : Nat → List Char → Option (List Json × List Char)
  | 0, _ => none
  | fuel + 1, input =>
    match parseValue fuel input with
    | none => none
    | some (v, r) =>
      match skipWs r with
      | [] => some ([v], [])
      | c :: r2 =>
        if c = ',' then
          match parseElems fuel r2 with
          | some (vs, r3) => some (v :: vs, r3)
          | none => none
        else some ([v], c :: r2)

/-- One-or-more comma-separated `"key":value` object members; stops before
the character following the last member. -/
def parseFields : Nat → List Char → Option (List (String × Json) × List Char)
  | 0, _ => none
  | fuel + 1, input =>
    match skipWs input with
    | [] => none
    | c0 :: kr =>
      if c0 = '"' then
        match parseStringBody kr with
        | none => none
        | some (kcs, r1) =>
          match skipWs r1 with
          | [] => none
          | c1 :: r2 =>
            if c1 = ':' then
              match parseValue fuel r2 with
              | none => none
              | some (v, r3) =>
                match skipWs r3 with
                | [] => some ([(String.mk kcs, v)], [])
                | c2 :: r4 =>
                  if c2 = ',' then
                    match parseFields fuel r4 with
                    | some (fs, r5) => some ((String.mk kcs, v) :: fs, r5)
                    | none => none
                  else some ([(String.mk kcs, v)], c2 :: r4)
            else none
      else none

end

/-- `JSON.stringify` on a JSON value. -/
def jsonStringify (j : Json) : String := String.mk j.render

/-- `JSON.parse`: parses a complete document, allowing only trailing
whitespace after the value. The fuel `length + 1` dominates the recursion
depth of any parse of the input. -/
def jsonParse (s : String) : Option Json :=
  match parseValue (s.data.length + 1) s.data with
  | some (j, rest) => if skipWs rest = [] then some j else none
  | none => none

mutual

/-- Fuel sufficient for `parseValue` to parse this value's rendering. -/
def Json.fuelNeeded : Json → Nat
  | Json.null => 1
  | Json.bool _ => 1
  | Json.num _ => 1
  | Json.str _ => 1
  | Json.arr xs => Json.fuelElems xs + 1
  | Json.obj fs => Json.fuelFields fs + 1

/-- Fuel sufficient for `parseElems` on these elements' rendering. -/
def Json.fuelElems : List Json → Nat
  | [] => 1
  | x :: xs => x.fuelNeeded + Json.fuelElems xs

/-- Fuel sufficient for `parseFields` on these members' rendering. -/
def Json.fuelFields : List (String × Json) → Nat
  | [] => 1
  | (_, v) :: fs => v.fuelNeeded + Json.fuelFields fs

end

/-- `LicenseMetadata` (types.ts lines 28-34). `customData` values are opaque
JSON-representable values. -/
structure LicenseMetadata where
  software : String
  version : String
  features : List String
  expiresAt : Option Int := none
  customData : Option (List (String × Json)) := none

/-- The JSON value `JSON.stringify` receives for a metadata object: fields in
declaration order, with absent optional fields omitted entirely (JavaScript
object properties holding `undefined` are not serialized). -/
def LicenseMetadata.toJson (m : LicenseMetadata) : Json :=
  Json.obj
    ([("software", Json.str m.software),
      ("version", Json.str m.version),
      ("features", Json.arr (m.features.map Json.str))]
     ++ (match m.expiresAt with
         | some t => [("expiresAt", Json.num t)]
         | none => [])
     ++ (match m.customData with
         | some fs => [("customData", Json.obj fs)]
         | none => []))

/-- `MintOptions` (types.ts lines 21-26). -/
structure MintOptions where
  toAddr : String
  tokenId : Nat
  metadata : LicenseMetadata
  expiresAt : Option Int := none

/-- `BatchMintOptions` (types.ts lines 67-72); structurally identical to
`MintOptions`. -/
structure BatchMintOptions where
  toAddr : String
  tokenId : Nat
  metadata : LicenseMetadata
  expiresAt : Option Int := none

/-- `EthereumConfig` (types.ts lines 1-10); the opaque `walletProvider`
capability is omitted. -/
structure EthereumConfig where
  network : String
  privateKey : Option String := none
  rpcUrl : Option String := none
  chainId : Option Nat := none
  gasPrice : Option String := none
  gasLimit : Option Nat := none
  confirmations : Option Nat := none

/-- The `status` union of `TransactionResult` (types.ts line 49). -/
inductive TxStatus where
  | pending
  | confirmed
  | failed
deriving DecidableEq

/-- `TransactionResult` (types.ts lines 45-50): `gasUsed` is a decimal string. -/
structure TransactionResult where
  hash : String
  blockNumber : Nat
  gasUsed : String
  status : TxStatus
deriving DecidableEq

/-- The transaction-overrides object each mutating call passes to the
contract method (`{gasLimit: this.config.gasLimit, gasPrice: this.config.gasPrice}`). -/
structure TxOverrides where
  gasLimit : Option Nat
  gasPrice : Option String
deriving DecidableEq

/-- An ethers `TransactionResponse` as far as the SDK reads it. -/
structure EthersTxResponse where
  hash : String
deriving DecidableEq

/-- An ethers `TransactionReceipt` as far as the SDK reads it: `status` is the
on-chain outcome flag (`1` success, `0` reverted). -/
structure EthersReceipt where
  hash : String := ""
  blockNumber : Nat
  gasUsed : Nat
  status : Nat := 1
  logs : List String := []
deriving DecidableEq

/-- The external signing/broadcast capability behind one mutating call:
`send` models the contract method invocation (returning the pending
transaction or throwing), and `wait n` models `tx.wait` resolving after `n`
block confirmations have been observed on the transaction hash (or
throwing). -/
structure ChainEnv where
  send : TxOverrides → Except EthersErrorInput EthersTxResponse
  wait : Nat → Except EthersErrorInput EthersReceipt

/-- The confirmation depth ethers' `tx.wait()` uses when called with no
argument, as every mutating method of `LicenseContract.ts` does. -/
def ethersWaitDefault : Nat := 1

/-- Observable run of one mutating facade method: the settled result and the
confirmation depth that was requested from the provider (`none` when `wait`
was never reached because submission threw). -/
structure MutRun where
  result : Except LicenseChainError TransactionResult
  waitDepth : Option Nat

/-- `LicenseContract.mintLicense` (LicenseContract.ts lines 41-66): submits
with the config's gas overrides, awaits `tx.wait()` at ethers' default depth,
and returns the literal status `'confirmed'`; any thrown cause is routed
through `fromEthersError`. -/
def LicenseContract.mintLicense (config : EthereumConfig) (chain : ChainEnv)
    (options : MintOptions) : MutRun :=
  match chain.send { gasLimit := config.gasLimit, gasPrice := config.gasPrice } with
  | Except.error e =>
    { result := Except.error (LicenseChainError.fromEthersError e), waitDepth := none }
  | Except.ok tx =>
    match chain.wait ethersWaitDefault with
    | Except.error e =>
      { result := Except.error (LicenseChainError.fromEthersError e),
        waitDepth := some ethersWaitDefault }
    | Except.ok receipt =>
      { result := Except.ok { hash := tx.hash, blockNumber := receipt.blockNumber,
                              gasUsed := natToString receipt.gasUsed,
                              status := TxStatus.confirmed },
        waitDepth := some ethersWaitDefault }

/-- `LicenseContract.transferLicense` (LicenseContract.ts lines 141-159). -/
def LicenseContract.transferLicense (config : EthereumConfig) (chain : ChainEnv)
    (fromAddr toAddr : String) (tokenId : Nat) : MutRun :=
  match chain.send { gasLimit := config.gasLimit, gasPrice := config.gasPrice } with
  | Except.error e =>
    { result := Except.error (LicenseChainError.fromEthersError e), waitDepth := none }
  | Except.ok tx =>
    match chain.wait ethersWaitDefault with
    | Except.error e =>
      { result := Except.error (LicenseChainError.fromEthersError e),
        waitDepth := some ethersWaitDefault }
    | Except.ok receipt =>
      { result := Except.ok { hash := tx.hash, blockNumber := receipt.blockNumber,
                              gasUsed := natToString receipt.gasUsed,
                              status := TxStatus.confirmed },
        waitDepth := some ethersWaitDefault }

/-- `LicenseContract.revokeLicense` (LicenseContract.ts lines 164-182). -/
def LicenseContract.revokeLicense (config : EthereumConfig) (chain : ChainEnv)
    (tokenId : Nat) : MutRun :=
  match chain.send { gasLimit := config.gasLimit, gasPrice := config.gasPrice } with
  | Except.error e =>
    { result := Except.error (LicenseChainError.fromEthersError e), waitDepth := none }
  | Except.ok tx =>
    match chain.wait ethersWaitDefault with
    | Except.error e =>
      { result := Except.error (LicenseChainError.fromEthersError e),
        waitDepth := some ethersWaitDefault }
    | Except.ok receipt =>
      { result := Except.ok { hash := tx.hash, blockNumber := receipt.blockNumber,
                              gasUsed := natToString receipt.gasUsed,
                              status := TxStatus.confirmed },
        waitDepth := some ethersWaitDefault }

/-- `LicenseContract.batchMintLicenses` (LicenseContract.ts lines 187-209). -/
def LicenseContract.batchMintLicenses (config : EthereumConfig) (chain : ChainEnv)
    (licenses : List BatchMintOptions) : MutRun :=
  match chain.send { gasLimit := config.gasLimit, gasPrice := config.gasPrice } with
  | Except.error e =>
    { result := Except.error (LicenseChainError.fromEthersError e), waitDepth := none }
  | Except.ok tx =>
    match chain.wait ethersWaitDefault with
    | Except.error e =>
      { result := Except.error (LicenseChainError.fromEthersError e),
        waitDepth := some ethersWaitDefault }
    | Except.ok receipt =>
      { result := Except.ok { hash := tx.hash, blockNumber := receipt.blockNumber,
                              gasUsed := natToString receipt.gasUsed,
                              status := TxStatus.confirmed },
        waitDepth := some ethersWaitDefault }

/-- `LicenseContract.grantRole` (LicenseContract.ts lines 214-233). -/
def LicenseContract.grantRole (config : EthereumConfig) (chain : ChainEnv)
    (role account : String) : MutRun :=
  match chain.send { gasLimit := config.gasLimit, gasPrice := config.gasPrice } with
  | Except.error e =>
    { result := Except.error (LicenseChainError.fromEthersError e), waitDepth := none }
  | Except.ok tx =>
    match chain.wait ethersWaitDefault with
    | Except.error e =>
      { result := Except.error (LicenseChainError.fromEthersError e),
        waitDepth := some ethersWaitDefault }
    | Except.ok receipt =>
      { result := Except.ok { hash := tx.hash, blockNumber := receipt.blockNumber,
                              gasUsed := natToString receipt.gasUsed,
                              status := TxStatus.confirmed },
        waitDepth := some ethersWaitDefault }

/-- `LicenseContract.revokeRole` (LicenseContract.ts lines 238-257). -/
def LicenseContract.revokeRole (config : EthereumConfig) (chain : ChainEnv)
    (role account : String) : MutRun :=
  match chain.send { gasLimit := config.gasLimit, gasPrice := config.gasPrice } with
  | Except.error e =>
    { result := Except.error (LicenseChainError.fromEthersError e), waitDepth := none }
  | Except.ok tx =>
    match chain.wait ethersWaitDefault with
    | Except.error e =>
      { result := Except.error (LicenseChainError.fromEthersError e),
        waitDepth := some ethersWaitDefault }
    | Except.ok receipt =>
      { result := Except.ok { hash := tx.hash, blockNumber := receipt.blockNumber,
                              gasUsed := natToString receipt.gasUsed,
                              status := TxStatus.confirmed },
        waitDepth := some ethersWaitDefault }

/-- `LicenseContract.pause` (LicenseContract.ts lines 274-292). -/
def LicenseContract.pause (config : EthereumConfig) (chain : ChainEnv) : MutRun :=
  match chain.send { gasLimit := config.gasLimit, gasPrice := config.gasPrice } with
  | Except.error e =>
    { result := Except.error (LicenseChainError.fromEthersError e), waitDepth := none }
  | Except.ok tx =>
    match chain.wait ethersWaitDefault with
    | Except.error e =>
      { result := Except.error (LicenseChainError.fromEthersError e),
        waitDepth := some ethersWaitDefault }
    | Except.ok receipt =>
      { result := Except.ok { hash := tx.hash, blockNumber := receipt.blockNumber,
                              gasUsed := natToString receipt.gasUsed,
                              status := TxStatus.confirmed },
        waitDepth := some ethersWaitDefault }

/-- `LicenseContract.unpause` (LicenseContract.ts lines 297-315). -/
def LicenseContract.unpause (config : EthereumConfig) (chain : ChainEnv) : MutRun :=
  match chain.send { gasLimit := config.gasLimit, gasPrice := config.gasPrice } with
  | Except.error e =>
    { result := Except.error (LicenseChainError.fromEthersError e), waitDepth := none }
  | Except.ok tx =>
    match chain.wait ethersWaitDefault with
    | Except.error e =>
      { result := Except.error (LicenseChainError.fromEthersError e),
        waitDepth := some ethersWaitDefault }
    | Except.ok receipt =>
      { result := Except.ok { hash := tx.hash, blockNumber := receipt.blockNumber,
                              gasUsed := natToString receipt.gasUsed,
                              status := TxStatus.confirmed },
        waitDepth := some ethersWaitDefault }

/-- Result shape of `parseTransactionReceipt` (utils.ts lines 443-451). -/
structure ParsedReceipt where
  hash : String
  blockNumber : Nat
  gasUsed : String
  status : TxStatus
  logs : List String
deriving DecidableEq

/-- `parseTransactionReceipt` (utils.ts lines 443-451): the only code in the
repository that inspects a receipt's on-chain `status` flag. No facade
method calls it. -/
def parseTransactionReceipt (receipt : EthersReceipt) : ParsedReceipt :=
  { hash := receipt.hash, blockNumber := receipt.blockNumber,
    gasUsed := natToString receipt.gasUsed,
    status := if receipt.status = 1 then TxStatus.confirmed else TxStatus.failed,
    logs := receipt.logs }

/-- `GasEstimate` (types.ts lines 59-65). -/
structure GasEstimate where
  gasLimit : String
  gasPrice : String
  maxFeePerGas : Option String := none
  maxPriorityFeePerGas : Option String := none
  totalCost : String
deriving DecidableEq

/-- Provider fee data as read by `estimateGasMintLicense`
(`provider.getFeeData()`): `gasPrice` may be `null`. -/
structure FeeData where
  gasPrice : Option Nat := none

/-- Left-pad a digit list with zeros to the given width. -/
def leftPadZeros (width : Nat) (ds : List Char) : List Char :=
  List.replicate (width - ds.length) '0' ++ ds

/-- Drop trailing zeros but keep at least one digit (the fraction-trimming
step of ethers' `formatUnits`). -/
def trimFracZeros (ds : List Char) : List Char :=
  let r := ds.reverse.dropWhile (fun c => c = '0')
  if r = [] then ['0'] else r.reverse

/-- `ethers.formatEther`: renders a wei amount as a decimal ether string,
`whole.fraction`, the 18-digit fraction trimmed of trailing zeros but never
empty. -/
def formatEther (wei : Nat) : String :=
  String.mk (natDigits (wei / 1000000000000000000) ++ '.' ::
    trimFracZeros (leftPadZeros 18 (natDigits (wei % 1000000000000000000))))

/-- `ethers.parseUnits('20', 'gwei')`: the fallback gas price in wei. -/
def parseUnits20Gwei : Nat := 20000000000

/-- The `GasEstimate` built by `LicenseContract.estimateGasMintLicense`
(LicenseContract.ts lines 359-379) from the resolved dry-run gas amount and
the provider fee data: `gasLimit` and `gasPrice` are the wei integers'
decimal strings, while `totalCost` is `ethers.formatEther` of their product
(`gasPrice.gasPrice || parseUnits('20','gwei')` is JavaScript-truthy
selection). -/
def LicenseContract.estimateGasMintLicense (gasEstimate : Nat) (feeData : FeeData) : GasEstimate :=
  let gasPriceWei := jsOrNat feeData.gasPrice parseUnits20Gwei
  { gasLimit := natToString gasEstimate,
    gasPrice := natToString gasPriceWei,
    totalCost := formatEther (gasEstimate * gasPriceWei) }

/-- A nonempty all-digit decimal string: the required base-unit (wei) integer
representation. -/
def isWeiIntegerString (s : String) : Bool :=
  !s.data.isEmpty && s.data.all Char.isDigit

/-- The character following a rendered numeral must not be a digit (true of
every context in which a numeral occurs inside rendered JSON: the suffix is
empty or starts with a delimiter). -/
def numStop (l : List Char) : Prop :=
  match l with
  | [] => True
  | c :: _ => c.isDigit = false

/-! ## Helper lemmas: decimal digits -/

theorem digitChar_toNat : ∀ n, n < 10 → (digitChar n).toNat = 48 + n := by decide

theorem digitChar_isDigit : ∀ n, n < 10 → (digitChar n).isDigit = true := by decide

theorem digitsToNat_append (xs : List Char) (c : Char) :
    digitsToNat (xs ++ [c]) = digitsToNat xs * 10 + (c.toNat - 48) := by
  simp [digitsToNat, List.foldl_append]

theorem natDigitsGo_spec : ∀ fuel n, n < fuel →
    digitsToNat (natDigitsGo fuel n) = n ∧ natDigitsGo fuel n ≠ [] ∧
      ∀ c ∈ natDigitsGo fuel n, c.isDigit = true := by
  intro fuel
  induction fuel with
  | zero => omega
  | succ fuel ih =>
    intro n hn
    by_cases h10 : n < 10
    · refine ⟨?_, by simp [natDigitsGo, h10], ?_⟩
      · simp [natDigitsGo, h10, digitsToNat, digitChar_toNat n h10]
      · simp [natDigitsGo, h10]
        exact digitChar_isDigit n h10
    · have hdiv : n / 10 < fuel := by
        have := Nat.div_lt_self (by omega : 0 < n) (by omega : 1 < 10)
        omega
      obtain ⟨hval, hne, hdig⟩ := ih (n / 10) hdiv
      have hmod : n % 10 < 10 := Nat.mod_lt _ (by omega)
      refine ⟨?_, by simp [natDigitsGo, h10], ?_⟩
      · rw [show natDigitsGo (fuel + 1) n =
            natDigitsGo fuel (n / 10) ++ [digitChar (n % 10)] by simp [natDigitsGo, h10]]
        rw [digitsToNat_append, hval, digitChar_toNat _ hmod]
        omega
      · rw [show natDigitsGo (fuel + 1) n =
            natDigitsGo fuel (n / 10) ++ [digitChar (n % 10)] by simp [natDigitsGo, h10]]
        intro c hc
        rcases List.mem_append.mp hc with h | h
        · exact hdig c h
        · rcases List.mem_singleton.mp h with rfl
          exact digitChar_isDigit _ hmod

theorem digitsToNat_natDigits (n : Nat) : digitsToNat (natDigits n) = n :=
  (natDigitsGo_spec (n + 1) n (by omega)).1

theorem natDigits_ne_nil (n : Nat) : natDigits n ≠ [] :=
  (natDigitsGo_spec (n + 1) n (by omega)).2.1

theorem natDigits_all_digits (n : Nat) : ∀ c ∈ natDigits n, c.isDigit = true :=
  (natDigitsGo_spec (n + 1) n (by omega)).2.2

/-! ## Helper lemmas: character classes -/

theorem ne_of_isDigit {c : Char} (h : c.isDigit = true) :
    ∀ x : Char, x.isDigit = false → c ≠ x := by
  intro x hx hcx
  rw [hcx, hx] at h
  cases h

theorem isDigit_not_special {c : Char} (h : c.isDigit = true) :
    jsWhitespace c = false ∧ c ≠ 'n' ∧ c ≠ 't' ∧ c ≠ 'f' ∧ c ≠ '"' ∧ c ≠ '[' ∧ c ≠ '{' ∧
      c ≠ ']' ∧ c ≠ '}' ∧ c ≠ ',' ∧ c ≠ '-' ∧ c ≠ ':' := by
  refine ⟨?_, ne_of_isDigit h _ (by decide), ne_of_isDigit h _ (by decide),
    ne_of_isDigit h _ (by decide), ne_of_isDigit h _ (by decide), ne_of_isDigit h _ (by decide),
    ne_of_isDigit h _ (by decide), ne_of_isDigit h _ (by decide), ne_of_isDigit h _ (by decide),
    ne_of_isDigit h _ (by decide), ne_of_isDigit h _ (by decide), ne_of_isDigit h _ (by decide)⟩
  simp only [jsWhitespace, Bool.or_eq_false_iff, decide_eq_false_iff_not]
  exact ⟨⟨⟨ne_of_isDigit h _ (by decide), ne_of_isDigit h _ (by decide)⟩,
    ne_of_isDigit h _ (by decide)⟩, ne_of_isDigit h _ (by decide)⟩

theorem skipWs_cons (c : Char) (l : List Char) (h : jsWhitespace c = false) :
    skipWs (c :: l) = c :: l := by
  simp [skipWs, List.dropWhile_cons, h]

theorem stringMk_data (s : String) : String.mk s.data = s := by cases s; rfl

/-! ## Helper lemmas: numeral parsing -/

theorem takeWhile_digits (ds rest : List Char) (hds : ∀ c ∈ ds, c.isDigit = true)
    (hrest : numStop rest) :
    (ds ++ rest).takeWhile Char.isDigit = ds ∧ (ds ++ rest).dropWhile Char.isDigit = rest := by
  induction ds with
  | nil =>
    simp only [List.nil_append]
    cases rest with
    | nil => simp
    | cons c t =>
      have hc : c.isDigit = false := hrest
      simp [List.takeWhile_cons, List.dropWhile_cons, hc]
  | cons d ds ih =>
    have hd : d.isDigit = true := hds d (by simp)
    obtain ⟨h1, h2⟩ := ih (fun c hc => hds c (by simp [hc])) 
    simp [List.takeWhile_cons, List.dropWhile_cons, hd, h1, h2]

theorem parseNumber_natDigits (n : Nat) (rest : List Char) (h : numStop rest) :
    parseNumber (natDigits n ++ rest) = some (Json.num (n : Int), rest) := by
  obtain ⟨d, ds, hd⟩ := List.exists_cons_of_ne_nil (natDigits_ne_nil n)
  have hall := natDigits_all_digits n
  have hddig : d.isDigit = true := by
    rw [hd] at hall
    exact hall d (by simp)
  have hsplit := takeWhile_digits (natDigits n) rest hall h
  rw [hd] at hsplit
  rw [hd]
  simp only [List.cons_append, parseNumber]
  rw [if_neg (isDigit_not_special hddig).2.2.2.2.2.2.2.2.2.2.1]
  rw [show List.takeWhile Char.isDigit (d :: (ds ++ rest)) = d :: ds from hsplit.1,
    show List.dropWhile Char.isDigit (d :: (ds ++ rest)) = rest from hsplit.2]
  simp [← hd, digitsToNat_natDigits]
  exact natDigits_ne_nil n

theorem parseNumber_intChars (i : Int) (rest : List Char) (h : numStop rest) :
    parseNumber (intChars i ++ rest) = some (Json.num i, rest) := by
  by_cases hneg : i < 0
  · have hsplit := takeWhile_digits (natDigits i.natAbs) rest (natDigits_all_digits _) h
    simp only [intChars, if_pos hneg, List.cons_append, parseNumber]
    simp only [if_true, if_pos trivial]
    rw [hsplit.1, hsplit.2]
    have hne : (natDigits i.natAbs).isEmpty = false := by
      cases hcons : natDigits i.natAbs with
      | nil => exact absurd hcons (natDigits_ne_nil _)
      | cons a b => simp
    simp only [hne, Bool.false_eq_true, if_false, digitsToNat_natDigits]
    have hi : -((i.natAbs : Nat) : Int) = i := by omega
    rw [hi]
  · simp only [intChars, if_neg hneg]
    rw [parseNumber_natDigits _ _ h]
    have : ((i.toNat : Nat) : Int) = i := by omega
    rw [this]

/-! ## Helper lemmas: string-literal round trip -/

theorem hexVal_hexDigit : ∀ n, n < 16 → hexVal (hexDigit n) = some n := by decide

theorem parseStringBody_u (h1 h2 h3 h4 : Char) (a b a3 a4 : Nat) (T : List Char)
    (e1 : hexVal h1 = some a) (e2 : hexVal h2 = some b)
    (e3 : hexVal h3 = some a3) (e4 : hexVal h4 = some a4) :
    parseStringBody ('\\' :: 'u' :: h1 :: h2 :: h3 :: h4 :: T)
      = (parseStringBody T).map
          (fun p => (Char.ofNat (a * 4096 + b * 256 + a3 * 16 + a4) :: p.1, p.2)) := by
  rw [parseStringBody.eq_def]
  show (match hexVal h1, hexVal h2, hexVal h3, hexVal h4 with
        | some a', some b', some c', some d' =>
          (parseStringBody T).map
            (fun (p : List Char × List Char) =>
              (Char.ofNat (a' * 4096 + b' * 256 + c' * 16 + d') :: p.1, p.2))
        | _, _, _, _ => none) = _
  rw [e1, e2, e3, e4]

theorem parseStringBody_escape : ∀ (cs rest : List Char),
    parseStringBody (escapeList cs ++ '"' :: rest) = some (cs, rest) := by
  intro cs
  induction cs with
  | nil =>
    intro rest
    rw [show escapeList [] ++ '"' :: rest = '"' :: rest by simp [escapeList],
      parseStringBody.eq_def]
    rfl
  | cons c cs ih =>
    intro rest
    by_cases h1 : c = '"'
    · subst h1
      rw [show escapeList ('"' :: cs) ++ '"' :: rest
          = '\\' :: '"' :: (escapeList cs ++ '"' :: rest) by simp [escapeList, escapeChar],
        parseStringBody.eq_def]
      show (parseStringBody (escapeList cs ++ '"' :: rest)).map (fun p => ('"' :: p.1, p.2)) = _
      rw [ih rest]
      rfl
    · by_cases h2 : c = '\\'
      · subst h2
        rw [show escapeList ('\\' :: cs) ++ '"' :: rest
            = '\\' :: '\\' :: (escapeList cs ++ '"' :: rest) by simp [escapeList, escapeChar],
          parseStringBody.eq_def]
        show (parseStringBody (escapeList cs ++ '"' :: rest)).map (fun p => ('\\' :: p.1, p.2)) = _
        rw [ih rest]
        rfl
      · by_cases h3 : c = '\n'
        · subst h3
          rw [show escapeList ('\n' :: cs) ++ '"' :: rest
              = '\\' :: 'n' :: (escapeList cs ++ '"' :: rest) by simp [escapeList, escapeChar],
            parseStringBody.eq_def]
          show (parseStringBody (escapeList cs ++ '"' :: rest)).map (fun p => ('\n' :: p.1, p.2)) = _
          rw [ih rest]
          rfl
        · by_cases h4 : c = '\r'
          · subst h4
            rw [show escapeList ('\r' :: cs) ++ '"' :: rest
                = '\\' :: 'r' :: (escapeList cs ++ '"' :: rest) by simp [escapeList, escapeChar],
              parseStringBody.eq_def]
            show (parseStringBody (escapeList cs ++ '"' :: rest)).map (fun p => ('\r' :: p.1, p.2)) = _
            rw [ih rest]
            rfl
          · by_cases h5 : c = '\t'
            · subst h5
              rw [show escapeList ('\t' :: cs) ++ '"' :: rest
                  = '\\' :: 't' :: (escapeList cs ++ '"' :: rest) by simp [escapeList, escapeChar],
                parseStringBody.eq_def]
              show (parseStringBody (escapeList cs ++ '"' :: rest)).map (fun p => ('\t' :: p.1, p.2)) = _
              rw [ih rest]
              rfl
            · by_cases h6 : c.toNat = 8
              · have hc : c = Char.ofNat 8 := by rw [← Char.ofNat_toNat c, h6]
                subst hc
                rw [show escapeList (Char.ofNat 8 :: cs) ++ '"' :: rest
                    = '\\' :: 'b' :: (escapeList cs ++ '"' :: rest) by simp [escapeList, escapeChar],
                  parseStringBody.eq_def]
                show (parseStringBody (escapeList cs ++ '"' :: rest)).map
                  (fun p => (Char.ofNat 8 :: p.1, p.2)) = _
                rw [ih rest]
                rfl
              · by_cases h7 : c.toNat = 12
                · have hc : c = Char.ofNat 12 := by rw [← Char.ofNat_toNat c, h7]
                  subst hc
                  rw [show escapeList (Char.ofNat 12 :: cs) ++ '"' :: rest
                      = '\\' :: 'f' :: (escapeList cs ++ '"' :: rest) by
                        simp [escapeList, escapeChar],
                    parseStringBody.eq_def]
                  show (parseStringBody (escapeList cs ++ '"' :: rest)).map
                    (fun p => (Char.ofNat 12 :: p.1, p.2)) = _
                  rw [ih rest]
                  rfl
                · by_cases h8 : c.toNat < 32
                  · have he : escapeChar c
                        = ['\\', 'u', '0', '0', hexDigit (c.toNat / 16), hexDigit (c.toNat % 16)] := by
                      simp only [escapeChar, if_neg h1, if_neg h2, if_neg h3, if_neg h4, if_neg h5,
                        if_neg h6, if_neg h7, if_pos h8]
                    rw [show escapeList (c :: cs) ++ '"' :: rest
                        = '\\' :: 'u' :: '0' :: '0' :: hexDigit (c.toNat / 16)
                            :: hexDigit (c.toNat % 16) :: (escapeList cs ++ '"' :: rest) by
                          show escapeChar c ++ escapeList cs ++ '"' :: rest = _
                          rw [he]
                          simp]
                    rw [parseStringBody_u _ _ _ _ 0 0 (c.toNat / 16) (c.toNat % 16) _
                      (by decide) (by decide) (hexVal_hexDigit _ (by omega))
                      (hexVal_hexDigit _ (by omega))]
                    rw [ih rest]
                    have harith : 0 * 4096 + 0 * 256 + c.toNat / 16 * 16 + c.toNat % 16 = c.toNat := by
                      omega
                    rw [harith, Char.ofNat_toNat]
                    rfl
                  · have he : escapeChar c = [c] := by
                      simp only [escapeChar, if_neg h1, if_neg h2, if_neg h3, if_neg h4, if_neg h5,
                        if_neg h6, if_neg h7, if_neg h8]
                    rw [show escapeList (c :: cs) ++ '"' :: rest
                        = c :: (escapeList cs ++ '"' :: rest) by
                          show escapeChar c ++ escapeList cs ++ '"' :: rest = _
                          rw [he]
                          simp]
                    rw [parseStringBody.eq_def]
                    simp only [if_neg h1, if_neg h2, if_neg h8, ih rest]
                    rfl

/-! ## Helper lemmas: object construction -/

theorem setField_append (acc : List (String × Json)) (k : String) (v : Json)
    (h : ∀ p ∈ acc, p.1 ≠ k) : setField acc k v = acc ++ [(k, v)] := by
  induction acc with
  | nil => rfl
  | cons q acc ih =>
    obtain ⟨k', v'⟩ := q
    have hk : k' ≠ k := h (k', v') (by simp)
    simp only [setField, if_neg hk, List.cons_append]
    rw [ih (fun p hp => h p (by simp [hp]))]

theorem foldl_setField (fs : List (String × Json)) : ∀ acc, nodupKeys fs = true →
    (∀ p ∈ fs, ∀ q ∈ acc, q.1 ≠ p.1) →
    fs.foldl (fun a kv => setField a kv.1 kv.2) acc = acc ++ fs := by
  induction fs with
  | nil =>
    intro acc _ _
    simp
  | cons f fs ih =>
    intro acc hnod hdis
    obtain ⟨k, v⟩ := f
    have hnod2 : (fs.any (fun p => p.1 == k)) = false ∧ nodupKeys fs = true := by
      simpa [nodupKeys] using hnod
    simp only [List.foldl_cons]
    rw [show setField acc k v = acc ++ [(k, v)] from
      setField_append acc k v (fun q hq => hdis (k, v) (by simp) q hq)]
    rw [ih (acc ++ [(k, v)]) hnod2.2 ?_]
    · simp
    · intro p hp q hq
      rcases List.mem_append.mp hq with hq | hq
      · exact hdis p (by simp [hp]) q hq
      · rcases List.mem_singleton.mp hq with rfl
        have hany := hnod2.1
        rw [List.any_eq_false] at hany
        have hnotk := hany p hp
        simp only [beq_eq_false_iff_ne, ne_eq] at hnotk
        intro hkp
        exact hnotk (by simpa using hkp.symm)

theorem buildObject_nodup (fs : List (String × Json)) (h : nodupKeys fs = true) :
    buildObject fs = fs := by
  rw [buildObject, foldl_setField fs [] h (by simp)]
  simp

/-! ## Helper lemmas: rendering heads and fuel -/

theorem render_head (j : Json) : ∃ c t, j.render = c :: t ∧ jsWhitespace c = false ∧
    c ≠ ']' ∧ c ≠ '}' ∧ c ≠ ',' ∧ c ≠ ':' := by
  cases j with
  | null => exact ⟨'n', _, rfl, by decide, by decide, by decide, by decide, by decide⟩
  | bool b =>
    cases b with
    | true => exact ⟨'t', _, rfl, by decide, by decide, by decide, by decide, by decide⟩
    | false => exact ⟨'f', _, rfl, by decide, by decide, by decide, by decide, by decide⟩
  | num i =>
    by_cases hi : i < 0
    · refine ⟨'-', natDigits i.natAbs, ?_, by decide, by decide, by decide, by decide, by decide⟩
      show intChars i = _
      simp [intChars, hi]
    · obtain ⟨d, ds, hd⟩ := List.exists_cons_of_ne_nil (natDigits_ne_nil i.toNat)
      have hdig : d.isDigit = true := by
        have := natDigits_all_digits i.toNat
        rw [hd] at this
        exact this d (by simp)
      have hf := isDigit_not_special hdig
      refine ⟨d, ds, ?_, hf.1, hf.2.2.2.2.2.2.2.1, hf.2.2.2.2.2.2.2.2.1,
        hf.2.2.2.2.2.2.2.2.2.1, hf.2.2.2.2.2.2.2.2.2.2.2⟩
      show intChars i = _
      simp [intChars, hi, hd]
  | str s => exact ⟨'"', _, rfl, by decide, by decide, by decide, by decide, by decide⟩
  | arr xs => exact ⟨'[', _, rfl, by decide, by decide, by decide, by decide, by decide⟩
  | obj fs => exact ⟨'{', _, rfl, by decide, by decide, by decide, by decide, by decide⟩

theorem fuelNeeded_pos (j : Json) : 1 ≤ j.fuelNeeded := by
  cases j <;> simp [Json.fuelNeeded]

theorem fuelElems_pos (xs : List Json) : 1 ≤ Json.fuelElems xs := by
  cases xs with
  | nil => simp [Json.fuelElems]
  | cons x xs =>
    have := fuelNeeded_pos x
    simp [Json.fuelElems]
    omega

theorem fuelFields_pos (fs : List (String × Json)) : 1 ≤ Json.fuelFields fs := by
  cases fs with
  | nil => simp [Json.fuelFields]
  | cons f fs =>
    have := fuelNeeded_pos f.2
    simp [Json.fuelFields]
    omega

theorem numStop_cons (c : Char) (l : List Char) (h : c.isDigit = false) : numStop (c :: l) := h

theorem numStop_nil : numStop [] := trivial

theorem fuelElems_cons (x : Json) (xs : List Json) :
    Json.fuelElems (x :: xs) = x.fuelNeeded + Json.fuelElems xs := by
  simp [Json.fuelElems]

theorem fuelFields_cons (k : String) (v : Json) (fs : List (String × Json)) :
    Json.fuelFields ((k, v) :: fs) = v.fuelNeeded + Json.fuelFields fs := by
  simp [Json.fuelFields]

theorem parse_render_master : ∀ fuel : Nat,
    (∀ (j : Json) (rest : List Char), j.fuelNeeded ≤ fuel → j.wf = true → numStop rest →
      parseValue fuel (j.render ++ rest) = some (j, rest)) ∧
    (∀ (x : Json) (xs : List Json) (rest : List Char),
      Json.fuelElems (x :: xs) ≤ fuel → Json.wfElems (x :: xs) = true →
      parseElems fuel (Json.renderElems (x :: xs) ++ ']' :: rest) = some (x :: xs, ']' :: rest)) ∧
    (∀ (k : String) (v : Json) (fs : List (String × Json)) (rest : List Char),
      Json.fuelFields ((k, v) :: fs) ≤ fuel → Json.wfFields ((k, v) :: fs) = true →
      parseFields fuel (Json.renderFields ((k, v) :: fs) ++ '}' :: rest)
        = some ((k, v) :: fs, '}' :: rest)) := by
  intro fuel
  induction fuel with
  | zero =>
    refine ⟨?_, ?_, ?_⟩
    · intro j rest hf _ _
      have := fuelNeeded_pos j
      omega
    · intro x xs rest hf _
      have := fuelElems_pos (x :: xs)
      omega
    · intro k v fs rest hf _
      have := fuelFields_pos ((k, v) :: fs)
      omega
  | succ fuel ih =>
    obtain ⟨ihP, ihQ, ihR⟩ := ih
    refine ⟨?_, ?_, ?_⟩
    · -- values
      intro j rest hf hwf hstop
      cases j with
      | null =>
        rw [show Json.null.render ++ rest = 'n' :: 'u' :: 'l' :: 'l' :: rest from rfl]
        simp only [parseValue]
        rw [skipWs_cons _ _ (by decide)]
        rfl
      | bool b =>
        cases b with
        | true =>
          rw [show (Json.bool true).render ++ rest = 't' :: 'r' :: 'u' :: 'e' :: rest from rfl]
          simp only [parseValue]
          rw [skipWs_cons _ _ (by decide)]
          rfl
        | false =>
          rw [show (Json.bool false).render ++ rest
              = 'f' :: 'a' :: 'l' :: 's' :: 'e' :: rest from rfl]
          simp only [parseValue]
          rw [skipWs_cons _ _ (by decide)]
          rfl
      | num i =>
        by_cases hi : i < 0
        · rw [show (Json.num i).render = intChars i from rfl,
            show intChars i = '-' :: natDigits i.natAbs by simp [intChars, hi]]
          simp only [List.cons_append, parseValue]
          rw [skipWs_cons _ _ (by decide)]
          show parseNumber ('-' :: (natDigits i.natAbs ++ rest)) = some (Json.num i, rest)
          rw [show '-' :: (natDigits i.natAbs ++ rest) = intChars i ++ rest by simp [intChars, hi]]
          exact parseNumber_intChars i rest hstop
        · obtain ⟨d, ds, hd⟩ := List.exists_cons_of_ne_nil (natDigits_ne_nil i.toNat)
          have hdig : d.isDigit = true := by
            have := natDigits_all_digits i.toNat
            rw [hd] at this
            exact this d (by simp)
          have hfct := isDigit_not_special hdig
          rw [show (Json.num i).render = intChars i from rfl,
            show intChars i = natDigits i.toNat by simp [intChars, hi], hd]
          simp only [List.cons_append, parseValue]
          rw [skipWs_cons _ _ hfct.1]
          simp only [if_neg hfct.2.1, if_neg hfct.2.2.1, if_neg hfct.2.2.2.1,
            if_neg hfct.2.2.2.2.1, if_neg hfct.2.2.2.2.2.1, if_neg hfct.2.2.2.2.2.2.1,
            if_pos (Or.inr hdig)]
          rw [show d :: (ds ++ rest) = intChars i ++ rest by
            simp [intChars, hi, hd]]
          exact parseNumber_intChars i rest hstop
      | str s =>
        rw [show (Json.str s).render ++ rest = '"' :: (escapeList s.data ++ '"' :: rest) by
          show encodeString s ++ rest = _
          simp [encodeString]]
        simp only [parseValue]
        rw [skipWs_cons _ _ (by decide)]
        show (parseStringBody (escapeList s.data ++ '"' :: rest)).map
          (fun (p : List Char × List Char) => (Json.str (String.mk p.1), p.2)) = some (Json.str s, rest)
        rw [parseStringBody_escape]
        simp [stringMk_data]
      | arr elems =>
        cases elems with
        | nil =>
          rw [show (Json.arr []).render ++ rest = '[' :: ']' :: rest from rfl]
          simp only [parseValue]
          rw [skipWs_cons _ _ (by decide)]
          rfl
        | cons x xs =>
          obtain ⟨hc, ht, hxr, hws, hne1, hne2, hne3, hne4⟩ := render_head x
          have helems : ∃ t2, Json.renderElems (x :: xs) = hc :: t2 := by
            cases xs with
            | nil => exact ⟨ht, by simp [Json.renderElems, hxr]⟩
            | cons y ys => exact ⟨ht ++ ',' :: Json.renderElems (y :: ys),
                by simp [Json.renderElems, hxr]⟩
          obtain ⟨t2, ht2⟩ := helems
          have hfe : Json.fuelElems (x :: xs) ≤ fuel := by
            simp only [Json.fuelNeeded] at hf
            omega
          have hwe : Json.wfElems (x :: xs) = true := by
            simpa [Json.wf] using hwf
          have hq := ihQ x xs rest hfe hwe
          rw [show (Json.arr (x :: xs)).render ++ rest
              = '[' :: (Json.renderElems (x :: xs) ++ ']' :: rest) by
            simp [Json.render]]
          simp only [parseValue]
          rw [skipWs_cons _ _ (by decide)]
          simp only [if_neg (by decide : ¬('[' = 'n')), if_neg (by decide : ¬('[' = 't')),
            if_neg (by decide : ¬('[' = 'f')), if_neg (by decide : ¬('[' = '"')),
            if_pos rfl]
          rw [ht2, List.cons_append, skipWs_cons _ _ hws]
          simp only [if_neg hne1]
          rw [← List.cons_append, ← ht2, hq]
          simp only []
          rw [skipWs_cons _ _ (by decide)]
          simp
      | obj fields =>
        cases fields with
        | nil =>
          rw [show (Json.obj []).render ++ rest = '{' :: '}' :: rest from rfl]
          simp only [parseValue]
          rw [skipWs_cons _ _ (by decide)]
          rfl
        | cons f fs =>
          obtain ⟨k, v⟩ := f
          have hff : Json.fuelFields ((k, v) :: fs) ≤ fuel := by
            simp only [Json.fuelNeeded] at hf
            omega
          have hnod : nodupKeys ((k, v) :: fs) = true ∧ Json.wfFields ((k, v) :: fs) = true := by
            have := hwf
            simp only [Json.wf, Bool.and_eq_true] at this
            exact this
          have hr := ihR k v fs rest hff hnod.2
          rw [show (Json.obj ((k, v) :: fs)).render ++ rest
              = '{' :: (Json.renderFields ((k, v) :: fs) ++ '}' :: rest) by
            simp [Json.render]]
          have hfieldshead : ∃ t2, Json.renderFields ((k, v) :: fs)
              = '"' :: t2 := by
            cases fs with
            | nil => exact ⟨escapeList k.data ++ '"' :: ':' :: v.render,
                by simp [Json.renderFields, encodeString]⟩
            | cons g gs => exact ⟨escapeList k.data ++ '"' :: ':' :: (v.render ++
                ',' :: Json.renderFields (g :: gs)),
                by simp [Json.renderFields, encodeString]⟩
          obtain ⟨t2, ht2⟩ := hfieldshead
          simp only [parseValue]
          rw [skipWs_cons _ _ (by decide)]
          simp only [if_neg (by decide : ¬('{' = 'n')), if_neg (by decide : ¬('{' = 't')),
            if_neg (by decide : ¬('{' = 'f')), if_neg (by decide : ¬('{' = '"')),
            if_neg (by decide : ¬('{' = '[')), if_pos rfl]
          rw [ht2, List.cons_append, skipWs_cons _ _ (by decide)]
          simp only [if_neg (by decide : ¬('"' = '}'))]
          rw [← List.cons_append, ← ht2, hr]
          simp only []
          rw [skipWs_cons _ _ (by decide)]
          simp only [if_pos rfl]
          rw [buildObject_nodup _ hnod.1]
          simp
    · -- array elements
      intro x xs rest hfe hwe
      have hwx : x.wf = true ∧ Json.wfElems xs = true := by
        simpa [Json.wfElems, Bool.and_eq_true] using hwe
      cases xs with
      | nil =>
        have hfx : x.fuelNeeded ≤ fuel := by
          simp only [Json.fuelElems] at hfe
          omega
        have hp := ihP x (']' :: rest) hfx hwx.1 (numStop_cons _ _ (by decide))
        rw [show Json.renderElems [x] = x.render by simp [Json.renderElems]]
        simp only [parseElems]
        rw [hp]
        simp only []
        rw [skipWs_cons _ _ (by decide)]
        simp only [if_neg (by decide : ¬(']' = ','))]
      | cons y ys =>
        have hpos1 := fuelNeeded_pos x
        have hpos2 := fuelElems_pos (y :: ys)
        have hfx : x.fuelNeeded ≤ fuel := by
          rw [fuelElems_cons] at hfe
          omega
        have hfyy : Json.fuelElems (y :: ys) ≤ fuel := by
          rw [fuelElems_cons] at hfe
          omega
        have hp := ihP x (',' :: (Json.renderElems (y :: ys) ++ ']' :: rest)) hfx hwx.1
          (numStop_cons _ _ (by decide))
        have hq := ihQ y ys rest hfyy hwx.2
        rw [show Json.renderElems (x :: y :: ys) ++ ']' :: rest
            = x.render ++ (',' :: (Json.renderElems (y :: ys) ++ ']' :: rest)) by
          simp [Json.renderElems]]
        simp only [parseElems]
        rw [hp]
        simp only []
        rw [skipWs_cons _ _ (by decide)]
        simp only [if_pos rfl]
        rw [hq]
        simp
    · -- object members
      intro k v fs rest hff hwff
      have hwv : v.wf = true ∧ Json.wfFields fs = true := by
        simpa [Json.wfFields, Bool.and_eq_true] using hwff
      have hfv : v.fuelNeeded ≤ fuel := by
        have := fuelFields_pos fs
        simp only [Json.fuelFields] at hff
        omega
      cases fs with
      | nil =>
        have hp := ihP v ('}' :: rest) hfv hwv.1 (numStop_cons _ _ (by decide))
        rw [show Json.renderFields [(k, v)] ++ '}' :: rest
            = '"' :: (escapeList k.data ++ '"' :: (':' :: (v.render ++ '}' :: rest))) by
          simp [Json.renderFields, encodeString]]
        simp only [parseFields]
        rw [skipWs_cons _ _ (by decide)]
        simp only [if_pos rfl]
        rw [parseStringBody_escape]
        simp only []
        rw [skipWs_cons _ _ (by decide)]
        simp only [if_pos rfl]
        rw [hp]
        simp only []
        rw [skipWs_cons _ _ (by decide)]
        simp only [if_neg (by decide : ¬('}' = ','))]
        rw [stringMk_data]
        simp
      | cons g gs =>
        obtain ⟨k2, v2⟩ := g
        have hposv := fuelNeeded_pos v
        have hposg := fuelFields_pos ((k2, v2) :: gs)
        have hfgg : Json.fuelFields ((k2, v2) :: gs) ≤ fuel := by
          simp only [Json.fuelFields] at hff ⊢
          omega
        have hp := ihP v (',' :: (Json.renderFields ((k2, v2) :: gs) ++ '}' :: rest)) hfv hwv.1
          (numStop_cons _ _ (by decide))
        have hr := ihR k2 v2 gs rest hfgg hwv.2
        rw [show Json.renderFields ((k, v) :: (k2, v2) :: gs) ++ '}' :: rest
            = '"' :: (escapeList k.data ++ '"' :: (':' :: (v.render ++
                ',' :: (Json.renderFields ((k2, v2) :: gs) ++ '}' :: rest)))) by
          simp [Json.renderFields, encodeString]]
        simp only [parseFields]
        rw [skipWs_cons _ _ (by decide)]
        simp only [if_pos rfl]
        rw [parseStringBody_escape]
        simp only []
        rw [skipWs_cons _ _ (by decide)]
        simp only [if_pos rfl]
        rw [hp]
        simp only []
        rw [skipWs_cons _ _ (by decide)]
        simp only [if_pos rfl]
        rw [hr]
        rw [stringMk_data]
        simp

mutual

theorem fuelNeeded_le_render : ∀ j : Json, j.fuelNeeded ≤ j.render.length + 1
  | Json.null => by simp [Json.fuelNeeded]
  | Json.bool b => by cases b <;> simp [Json.fuelNeeded]
  | Json.num i => by simp [Json.fuelNeeded]
  | Json.str s => by simp [Json.fuelNeeded]
  | Json.arr xs => by
    have h := fuelElems_le_render xs
    have hr : (Json.arr xs).render.length = (Json.renderElems xs).length + 2 := by
      simp [Json.render]
    simp only [Json.fuelNeeded, hr]
    omega
  | Json.obj fs => by
    have h := fuelFields_le_render fs
    have hr : (Json.obj fs).render.length = (Json.renderFields fs).length + 2 := by
      simp [Json.render]
    simp only [Json.fuelNeeded, hr]
    omega

theorem fuelElems_le_render : ∀ xs : List Json, Json.fuelElems xs ≤ (Json.renderElems xs).length + 2
  | [] => by simp [Json.fuelElems]
  | [x] => by
    have h := fuelNeeded_le_render x
    have hr : Json.renderElems [x] = x.render := by simp [Json.renderElems]
    have hf : Json.fuelElems [x] = x.fuelNeeded + 1 := by
      rw [fuelElems_cons]
      simp [Json.fuelElems]
    rw [hr, hf]
    omega
  | x :: y :: ys => by
    have h1 := fuelNeeded_le_render x
    have h2 := fuelElems_le_render (y :: ys)
    have hr : Json.renderElems (x :: y :: ys) = x.render ++ ',' :: Json.renderElems (y :: ys) := by
      simp [Json.renderElems]
    rw [fuelElems_cons, hr]
    simp only [List.length_append, List.length_cons]
    omega

theorem fuelFields_le_render : ∀ fs : List (String × Json),
    Json.fuelFields fs ≤ (Json.renderFields fs).length + 2
  | [] => by simp [Json.fuelFields]
  | [(k, v)] => by
    have h := fuelNeeded_le_render v
    have hr : Json.renderFields [(k, v)] = encodeString k ++ ':' :: v.render := by
      simp [Json.renderFields]
    have hf : Json.fuelFields [(k, v)] = v.fuelNeeded + 1 := by
      rw [fuelFields_cons]
      simp [Json.fuelFields]
    rw [hr, hf]
    simp only [List.length_append, List.length_cons]
    omega
  | (k, v) :: g :: gs => by
    have h1 := fuelNeeded_le_render v
    have h2 := fuelFields_le_render (g :: gs)
    have hr : Json.renderFields ((k, v) :: g :: gs)
        = encodeString k ++ ':' :: v.render ++ ',' :: Json.renderFields (g :: gs) := by
      simp [Json.renderFields]
    rw [fuelFields_cons, hr]
    simp only [List.length_append, List.length_cons]
    omega

end

theorem jsonParse_roundTrip (j : Json) (hwf : j.wf = true) :
    jsonParse (jsonStringify j) = some j := by
  have hm := (parse_render_master (j.render.length + 1)).1 j []
    (by have := fuelNeeded_le_render j; omega) hwf numStop_nil
  rw [List.append_nil] at hm
  rw [jsonStringify, jsonParse]
  rw [show (String.mk j.render).data = j.render from rfl, hm]
  simp [skipWs]

/-! ## Helper lemmas: retry loop -/

theorem retryGo_allFail {E T : Type} (fn : Nat → Except E T) (b : Nat) (es : Nat → E) :
    ∀ remaining i, 1 ≤ remaining →
    (∀ j, j < remaining → fn (i + j) = Except.error (es (i + j))) →
    (retryGo fn b i remaining).outcome = Except.error (some (es (i + remaining - 1))) ∧
    (retryGo fn b i remaining).calls = remaining := by
  intro remaining
  induction remaining with
  | zero => omega
  | succ r ihr =>
    intro i h1 hfail
    have hf0 : fn i = Except.error (es i) := by simpa using hfail 0 (by omega)
    by_cases hr : r = 0
    · subst hr
      simp [retryGo, hf0]
    · have ihr' := ihr (i + 1) (by omega) (fun j hj => by
        have := hfail (j + 1) (by omega)
        rw [show i + (j + 1) = i + 1 + j by omega] at this
        exact this)
      simp only [retryGo, hf0]
      rw [if_neg hr]
      refine ⟨?_, ?_⟩
      · show (retryGo fn b (i + 1) r).outcome = _
        rw [ihr'.1]
        rw [show i + 1 + r - 1 = i + (r + 1) - 1 by omega]
      · show (retryGo fn b (i + 1) r).calls + 1 = r + 1
        rw [ihr'.2]

theorem retryGo_succeeds {E T : Type} (fn : Nat → Except E T) (b : Nat) (es : Nat → E) (t : T) :
    ∀ k i remaining, k < remaining →
    (∀ j, j < k → fn (i + j) = Except.error (es (i + j))) →
    fn (i + k) = Except.ok t →
    (retryGo fn b i remaining).outcome = Except.ok t ∧
    (retryGo fn b i remaining).calls = k + 1 ∧
    (retryGo fn b i remaining).totalDelay = (Finset.range k).sum (fun j => b * 2 ^ (i + j)) := by
  intro k
  induction k with
  | zero =>
    intro i remaining hlt hfail hok
    obtain ⟨r, rfl⟩ : ∃ r, remaining = r + 1 := ⟨remaining - 1, by omega⟩
    have hok0 : fn i = Except.ok t := by simpa using hok
    simp [retryGo, hok0]
  | succ k ihk =>
    intro i remaining hlt hfail hok
    obtain ⟨r, rfl⟩ : ∃ r, remaining = r + 1 := ⟨remaining - 1, by omega⟩
    have hf0 : fn i = Except.error (es i) := by simpa using hfail 0 (by omega)
    have hr : r ≠ 0 := by omega
    have ihk' := ihk (i + 1) r (by omega)
      (fun j hj => by
        have := hfail (j + 1) (by omega)
        rw [show i + (j + 1) = i + 1 + j by omega] at this
        exact this)
      (by rw [show i + 1 + k = i + (k + 1) by omega]; exact hok)
    simp only [retryGo, hf0]
    rw [if_neg hr]
    refine ⟨?_, ?_, ?_⟩
    · show (retryGo fn b (i + 1) r).outcome = _
      exact ihk'.1
    · show (retryGo fn b (i + 1) r).calls + 1 = k + 1 + 1
      rw [ihk'.2.1]
    · show (retryGo fn b (i + 1) r).totalDelay + b * 2 ^ i = _
      rw [ihk'.2.2, Finset.sum_range_succ', Nat.add_zero]
      congr 1
      exact Finset.sum_congr rfl (fun j _ => by rw [show i + 1 + j = i + (j + 1) by omega])

theorem isWeiIntegerString_natToString (n : Nat) : isWeiIntegerString (natToString n) = true := by
  have h1 := natDigits_ne_nil n
  have h2 := natDigits_all_digits n
  simp only [isWeiIntegerString, natToString, Bool.and_eq_true, Bool.not_eq_true',
    List.all_eq_true]
  constructor
  · cases hc : natDigits n with
    | nil => exact absurd hc h1
    | cons a b => simp
  · exact fun c hc => h2 c hc

/-! ## Claims -/

/-- C10: calling `retryWithBackoff` with `maxRetries = 0` (below the
documented precondition) never runs the loop body: the wrapped operation is
invoked zero times and the promise rejects with the JavaScript `undefined`
value (`Except.error none` in this model), not with any `Error`. -/
theorem C10_zero_attempts {E T : Type} (fn : Nat → Except E T) (baseDelay : Nat) :
    retryWithBackoff fn 0 baseDelay
      = { outcome := Except.error none, calls := 0, totalDelay := 0 } := rfl

/-- C2 counterexample: a failure that `isRetryableError` classifies as
non-retryable is nevertheless retried — with `maxAttempts = 2` the operation
is invoked twice, not once, refuting the claim that non-retryable failures
propagate after the first attempt. -/
theorem C2_counterexample :
    ¬ (∀ (T : Type) (fn : Nat → Except EthersErrorInput T)
        (maxAttempts baseDelay : Nat) (e : EthersErrorInput),
        1 ≤ maxAttempts → fn 0 = Except.error e → isRetryableError e = false →
        (retryWithBackoff fn maxAttempts baseDelay).outcome = Except.error (some e) ∧
        (retryWithBackoff fn maxAttempts baseDelay).calls = 1) := by
  intro h
  have hres := h Nat (fun _ => Except.error { code := some "BOOM", message := some "boom" })
    2 100 { code := some "BOOM", message := some "boom" } (by omega) rfl (by decide)
  exact absurd hres.2 (by decide)

/-- C2 (amended): `retryWithBackoff` never consults `isRetryableError`; every
failure, including each one the classifier deems non-retryable, is retried
with backoff until the attempts are exhausted, so an operation that fails
every time is invoked exactly `maxAttempts` times and the last failure is
then propagated. -/
theorem C2_nonretryable_still_retried {T : Type} (fn : Nat → Except EthersErrorInput T)
    (maxAttempts baseDelay : Nat) (es : Nat → EthersErrorInput)
    (hm : 1 ≤ maxAttempts)
    (hfail : ∀ i, i < maxAttempts →
      fn i = Except.error (es i) ∧ isRetryableError (es i) = false) :
    (retryWithBackoff fn maxAttempts baseDelay).outcome
      = Except.error (some (es (maxAttempts - 1))) ∧
    (retryWithBackoff fn maxAttempts baseDelay).calls = maxAttempts := by
  have h := retryGo_allFail fn baseDelay es maxAttempts 0 hm
    (fun j hj => by simpa using (hfail j hj).1)
  rw [retryWithBackoff]
  simpa using h

/-- C2 witness: a concrete non-retryable failure (`VALIDATION_ERROR`) with
three attempts is invoked three times and then propagated. -/
theorem C2_witness :
    (retryWithBackoff (fun _ => (Except.error ⟨some "VALIDATION_ERROR", some "invalid"⟩ : Except EthersErrorInput Nat)) 3 50).outcome
      = Except.error (some ⟨some "VALIDATION_ERROR", some "invalid"⟩) ∧
    (retryWithBackoff (fun _ => (Except.error ⟨some "VALIDATION_ERROR", some "invalid"⟩ : Except EthersErrorInput Nat)) 3 50).calls = 3 := by
  have h := C2_nonretryable_still_retried
    (fun _ => (Except.error ⟨some "VALIDATION_ERROR", some "invalid"⟩ : Except EthersErrorInput Nat)) 3 50
    (fun _ => ⟨some "VALIDATION_ERROR", some "invalid"⟩)
    (by omega) (fun i _ => ⟨rfl, by
      show isRetryableError ⟨some "VALIDATION_ERROR", some "invalid"⟩ = false
      decide⟩)
  exact h

/-- C7: an operation failing with retryable causes exactly `k < maxAttempts`
times and then succeeding makes `retryWithBackoff` return the success value
after `k + 1` invocations, with total scheduled backoff
`baseDelay * (2^0 + ... + 2^(k-1))`. -/
theorem C7_backoff_success {T : Type} (fn : Nat → Except EthersErrorInput T)
    (maxAttempts baseDelay k : Nat) (es : Nat → EthersErrorInput) (t : T)
    (hk : k < maxAttempts)
    (hfail : ∀ j, j < k → fn j = Except.error (es j) ∧ isRetryableError (es j) = true)
    (hok : fn k = Except.ok t) :
    (retryWithBackoff fn maxAttempts baseDelay).outcome = Except.ok t ∧
    (retryWithBackoff fn maxAttempts baseDelay).calls = k + 1 ∧
    (retryWithBackoff fn maxAttempts baseDelay).totalDelay
      = (Finset.range k).sum (fun j => baseDelay * 2 ^ j) := by
  have h := retryGo_succeeds fn baseDelay es t k 0 maxAttempts hk
    (fun j hj => by simpa using (hfail j hj).1) (by simpa using hok)
  rw [retryWithBackoff]
  refine ⟨h.1, h.2.1, ?_⟩
  rw [h.2.2]
  exact Finset.sum_congr rfl (fun j _ => by rw [Nat.zero_add])

/-- C7 witness: two retryable network failures then success at the third
attempt, with `maxAttempts = 4` and `baseDelay = 100`: the value is returned
after three invocations and the scheduled backoff is `100 * (1 + 2) = 300`. -/
theorem C7_witness :
    (retryWithBackoff (fun i => if i < 2 then (Except.error ⟨some "NETWORK_ERROR", none⟩ : Except EthersErrorInput Nat) else Except.ok 42) 4 100).outcome = Except.ok 42 ∧
    (retryWithBackoff (fun i => if i < 2 then (Except.error ⟨some "NETWORK_ERROR", none⟩ : Except EthersErrorInput Nat) else Except.ok 42) 4 100).calls = 3 ∧
    (retryWithBackoff (fun i => if i < 2 then (Except.error ⟨some "NETWORK_ERROR", none⟩ : Except EthersErrorInput Nat) else Except.ok 42) 4 100).totalDelay = 300 := by
  have h := C7_backoff_success
    (fun i => if i < 2 then (Except.error ⟨some "NETWORK_ERROR", none⟩ : Except EthersErrorInput Nat) else Except.ok 42)
    4 100 2 (fun _ => ⟨some "NETWORK_ERROR", none⟩) 42
    (by omega)
    (fun j hj => by
      refine ⟨by simp [hj], ?_⟩
      show isRetryableError ⟨some "NETWORK_ERROR", none⟩ = true
      decide)
    (by simp)
  refine ⟨h.1, h.2.1, ?_⟩
  rw [h.2.2]
  decide

/-- C3 counterexample: a promise that never settles makes `withTimeout`
reject with a plain `Error`, not with a `LicenseChainError` of kind
`TIMEOUT_ERROR`, refuting the claim that the timeout failure is a
distinguishable `DomainError`. -/
theorem C3_counterexample :
    ¬ (∀ (T : Type) (promise : TimedPromise T) (timeoutMs : Nat),
        promise.settlesAt = none →
        ∃ e : LicenseChainError,
          withTimeout promise timeoutMs = Except.error (JsRejection.domainError e) ∧
          e.code = ErrorCodes.TIMEOUT_ERROR) := by
  intro h
  obtain ⟨e, he, _⟩ := h Nat { settlesAt := none, outcome := Except.ok 0 } 100 rfl
  simp [withTimeout] at he

/-- C3 (amended): when the timer fires first, `withTimeout` rejects with the
generic `Error` whose message is 'Operation timed out' — not a
`LicenseChainError` of kind `TIMEOUT_ERROR`; when the operation settles
strictly before the limit, its result or failure propagates unchanged. -/
theorem C3_timeout_behaviour {T : Type} (promise : TimedPromise T) (timeoutMs : Nat) :
    ((promise.settlesAt = none ∨ (∃ t, promise.settlesAt = some t ∧ timeoutMs ≤ t)) →
      withTimeout promise timeoutMs
        = Except.error (JsRejection.genericError "Operation timed out")) ∧
    (∀ t, promise.settlesAt = some t → t < timeoutMs →
      withTimeout promise timeoutMs = promise.outcome) := by
  constructor
  · rintro (hn | ⟨t, ht, hle⟩)
    · simp [withTimeout, hn]
    · simp [withTimeout, ht, Nat.not_lt.mpr hle]
  · intro t ht hlt
    simp [withTimeout, ht, hlt]

/-- C3 witness: a never-settling promise times out with the generic error,
and a promise settling at time 5 against a limit of 100 propagates its value
unchanged. -/
theorem C3_witness :
    withTimeout ({ settlesAt := none, outcome := Except.ok 37 } : TimedPromise Nat) 100
      = Except.error (JsRejection.genericError "Operation timed out") ∧
    withTimeout ({ settlesAt := some 5, outcome := Except.ok 37 } : TimedPromise Nat) 100
      = Except.ok 37 := by
  constructor
  · exact (C3_timeout_behaviour { settlesAt := none, outcome := Except.ok 37 } 100).1 (Or.inl rfl)
  · exact (C3_timeout_behaviour { settlesAt := some 5, outcome := Except.ok 37 } 100).2 5 rfl
      (by omega)

/-- C4 counterexample: `getNetworkConfig "custom"` with both inputs absent
fails by throwing a plain `Error` ('Unsupported network: custom'), not a
`LicenseChainError` of kind `INVALID_NETWORK`, refuting the claimed failure
type. -/
theorem C4_counterexample :
    ¬ (∀ (rpcUrl : Option String) (chainId : Option Nat),
        (rpcUrl = none ∨ chainId = none) →
        ∃ e : LicenseChainError,
          getNetworkConfig "custom" rpcUrl chainId
            = Except.error (JsRejection.domainError e) ∧
          e.code = ErrorCodes.INVALID_NETWORK) := by
  intro h
  obtain ⟨e, he, _⟩ := h none none (Or.inl rfl)
  rw [show getNetworkConfig "custom" none none
      = Except.error (JsRejection.genericError "Unsupported network: custom") from rfl] at he
  simp at he

/-- C4 (amended): network resolution with `network = "custom"` and a missing
(or JavaScript-falsy) endpoint or chain id, and resolution of any
unrecognized network name, both fail — but with a plain `Error` whose message
is 'Unsupported network: ...', not with the `invalidNetwork` domain error the
error module provides. -/
theorem C4_unsupported_network_generic_error :
    (∀ (rpcUrl : Option String) (chainId : Option Nat),
      truthyNat chainId = false ∨ truthyStr rpcUrl = false →
      getNetworkConfig "custom" rpcUrl chainId
        = Except.error (JsRejection.genericError ("Unsupported network: custom"))) ∧
    (∀ (network : String) (rpcUrl : Option String) (chainId : Option Nat),
      network ≠ "custom" → network ≠ "mainnet" → network ≠ "goerli" → network ≠ "sepolia" →
      network ≠ "polygon" → network ≠ "arbitrum" → network ≠ "optimism" →
      getNetworkConfig network rpcUrl chainId
        = Except.error (JsRejection.genericError ("Unsupported network: " ++ network))) := by
  constructor
  · intro rpcUrl chainId hfalse
    have hcond : ¬("custom" = "custom" ∧ truthyNat chainId = true ∧ truthyStr rpcUrl = true) := by
      rcases hfalse with hf | hf <;> simp [hf]
    simp only [getNetworkConfig]
    rw [if_neg (by simpa using hcond)]
    rfl
  · intro network rpcUrl chainId h1 h2 h3 h4 h5 h6 h7
    simp only [getNetworkConfig]
    rw [if_neg (fun hcon => h1 hcon.1), if_neg h2, if_neg h3, if_neg h4, if_neg h5,
      if_neg h6, if_neg h7]

/-- C4 witness: the custom network with no endpoint and no chain id, and the
unknown name 'ropsten', both produce the generic unsupported-network error. -/
theorem C4_witness :
    getNetworkConfig "custom" none none
      = Except.error (JsRejection.genericError "Unsupported network: custom") ∧
    getNetworkConfig "ropsten" none none
      = Except.error (JsRejection.genericError "Unsupported network: ropsten") := by
  constructor
  · exact C4_unsupported_network_generic_error.1 none none (Or.inl rfl)
  · exact C4_unsupported_network_generic_error.2 "ropsten" none none (by decide) (by decide)
      (by decide) (by decide) (by decide) (by decide) (by decide)

/-- C5 counterexample: an RPC cause matching no known pattern (code -32700)
is normalized by `fromRpcError` to kind `RPC_ERROR`, not `UNKNOWN_ERROR`,
refuting the claimed catch-all. -/
theorem C5_counterexample :
    ¬ (∀ error : RpcErrorInput,
        error.code ≠ some (-32603) → error.code ≠ some (-32602) →
        (LicenseChainError.fromRpcError error).code = ErrorCodes.UNKNOWN_ERROR) := by
  intro h
  have := h ⟨some (-32700), some "parse error"⟩ (by decide) (by decide)
  exact absurd this (by decide)

/-- C5 (amended): the documented code-specific mappings hold and the original
cause is always preserved under `details`, but the two normalizers have
different catch-alls: `fromEthersError` maps unmatched causes to
`UNKNOWN_ERROR`, while `fromRpcError` maps -32000 to `TRANSACTION_FAILED` and
every other unmatched cause to `RPC_ERROR`; both are functions, hence
deterministic. -/
theorem C5_error_normalization (e : EthersErrorInput) (r : RpcErrorInput) :
    ((LicenseChainError.fromEthersError e).details
        = some (ErrorDetails.originalEthersError e)) ∧
    ((LicenseChainError.fromRpcError r).details = some (ErrorDetails.originalRpcError r)) ∧
    (e.code = some "INSUFFICIENT_FUNDS" →
      (LicenseChainError.fromEthersError e).code = ErrorCodes.INSUFFICIENT_FUNDS) ∧
    (e.code = some "UNPREDICTABLE_GAS_LIMIT" →
      (LicenseChainError.fromEthersError e).code = ErrorCodes.GAS_ESTIMATION_FAILED) ∧
    (e.code = some "CALL_EXCEPTION" →
      (LicenseChainError.fromEthersError e).code = ErrorCodes.TRANSACTION_REVERTED) ∧
    (e.code = some "NETWORK_ERROR" →
      (LicenseChainError.fromEthersError e).code = ErrorCodes.NETWORK_ERROR) ∧
    (e.code ≠ some "INSUFFICIENT_FUNDS" → e.code ≠ some "UNPREDICTABLE_GAS_LIMIT" →
      e.code ≠ some "CALL_EXCEPTION" → e.code ≠ some "NETWORK_ERROR" →
      (LicenseChainError.fromEthersError e).code = ErrorCodes.UNKNOWN_ERROR) ∧
    (r.code = some (-32603) →
      (LicenseChainError.fromRpcError r).code = ErrorCodes.RPC_ERROR) ∧
    (r.code = some (-32602) →
      (LicenseChainError.fromRpcError r).code = ErrorCodes.VALIDATION_ERROR) ∧
    (r.code = some (-32000) →
      (LicenseChainError.fromRpcError r).code = ErrorCodes.TRANSACTION_FAILED) ∧
    (r.code ≠ some (-32603) → r.code ≠ some (-32602) → r.code ≠ some (-32000) →
      (LicenseChainError.fromRpcError r).code = ErrorCodes.RPC_ERROR) ∧
    (∀ e' : EthersErrorInput, e = e' →
      LicenseChainError.fromEthersError e = LicenseChainError.fromEthersError e') := by
  refine ⟨?_, ?_, ?_, ?_, ?_, ?_, ?_, ?_, ?_, ?_, ?_, ?_⟩
  · simp only [LicenseChainError.fromEthersError]
    split_ifs <;> rfl
  · simp only [LicenseChainError.fromRpcError]
    split_ifs <;> rfl
  · intro hc
    simp [LicenseChainError.fromEthersError, hc]
  · intro hc
    simp [LicenseChainError.fromEthersError, hc]
  · intro hc
    simp [LicenseChainError.fromEthersError, hc]
  · intro hc
    simp [LicenseChainError.fromEthersError, hc]
  · intro h1 h2 h3 h4
    simp only [LicenseChainError.fromEthersError]
    rw [if_neg h1, if_neg h2, if_neg h3, if_neg h4]
  · intro hc
    simp [LicenseChainError.fromRpcError, hc]
  · intro hc
    simp [LicenseChainError.fromRpcError, hc]
  · intro hc
    simp [LicenseChainError.fromRpcError, hc]
  · intro h1 h2 h3
    simp only [LicenseChainError.fromRpcError]
    rw [if_neg h1, if_neg h2, if_neg h3]
  · intro e' he
    rw [he]

/-- C5 witness: an insufficient-funds provider cause and a malformed-params
RPC cause take their documented kinds, with the original causes preserved. -/
theorem C5_witness :
    (LicenseChainError.fromEthersError ⟨some "INSUFFICIENT_FUNDS", none⟩).code
      = ErrorCodes.INSUFFICIENT_FUNDS ∧
    (LicenseChainError.fromRpcError ⟨some (-32602), none⟩).code
      = ErrorCodes.VALIDATION_ERROR ∧
    (LicenseChainError.fromEthersError ⟨some "INSUFFICIENT_FUNDS", none⟩).details
      = some (ErrorDetails.originalEthersError ⟨some "INSUFFICIENT_FUNDS", none⟩) := by
  have h := C5_error_normalization ⟨some "INSUFFICIENT_FUNDS", none⟩ ⟨some (-32602), none⟩
  exact ⟨h.2.2.1 rfl, h.2.2.2.2.2.2.2.2.1 rfl, h.1⟩

/-- C6 counterexample: for a dry-run estimate of 21000 gas at 20 gwei, the
returned `totalCost` is the ether-denominated string "0.00042", not the wei
integer string "420000000000000", refuting the all-fields-are-wei-integers
claim. -/
theorem C6_counterexample :
    (LicenseContract.estimateGasMintLicense 21000 { gasPrice := some 20000000000 }).totalCost
      = "0.00042" ∧
    (LicenseContract.estimateGasMintLicense 21000 { gasPrice := some 20000000000 }).totalCost
      ≠ natToString (21000 * 20000000000) ∧
    isWeiIntegerString
      (LicenseContract.estimateGasMintLicense 21000
        { gasPrice := some 20000000000 }).totalCost = false := by
  refine ⟨rfl, by decide, by decide⟩

/-- C6 (amended): `gasLimit` and `gasPrice` of the returned estimate are the
wei integers' decimal strings, but `totalCost` is `ethers.formatEther` of the
product — an ether-denominated decimal fraction, not a wei integer string. -/
theorem C6_gas_estimate_fields (gasEstimate : Nat) (feeData : FeeData) :
    (LicenseContract.estimateGasMintLicense gasEstimate feeData).gasLimit
      = natToString gasEstimate ∧
    (LicenseContract.estimateGasMintLicense gasEstimate feeData).gasPrice
      = natToString (jsOrNat feeData.gasPrice parseUnits20Gwei) ∧
    (LicenseContract.estimateGasMintLicense gasEstimate feeData).totalCost
      = formatEther (gasEstimate * jsOrNat feeData.gasPrice parseUnits20Gwei) ∧
    isWeiIntegerString
      (LicenseContract.estimateGasMintLicense gasEstimate feeData).gasLimit = true ∧
    isWeiIntegerString
      (LicenseContract.estimateGasMintLicense gasEstimate feeData).gasPrice = true := by
  refine ⟨rfl, rfl, rfl, ?_, ?_⟩
  · exact isWeiIntegerString_natToString gasEstimate
  · exact isWeiIntegerString_natToString _

/-- C1 counterexample: with `confirmations = 5` configured, a successful
`mintLicense` still reports `'confirmed'` after requesting only ethers'
default depth of 1 confirmation from the provider, refuting the claim that
the configured depth is observed first. -/
theorem C1_counterexample :
    ¬ (∀ (config : EthereumConfig) (chain : ChainEnv) (options : MintOptions)
        (n : Nat) (r : TransactionResult),
        config.confirmations = some n →
        (LicenseContract.mintLicense config chain options).result = Except.ok r →
        (LicenseContract.mintLicense config chain options).waitDepth = some n) := by
  intro h
  have hdep := h { network := "mainnet", confirmations := some 5 }
    { send := fun _ => Except.ok ⟨"0xabc"⟩,
      wait := fun _ => Except.ok { blockNumber := 100, gasUsed := 21000 } }
    { toAddr := "0xd", tokenId := 1, metadata := ⟨"App", "1.0.0", [], none, none⟩ }
    5 { hash := "0xabc", blockNumber := 100, gasUsed := "21000", status := TxStatus.confirmed }
    rfl rfl
  exact absurd hdep (by decide)

/-- C1 (amended): every mutating contract operation that returns a result at
all returns status `'confirmed'` — `'pending'` is never returned — and the
wait that precedes it is always requested at ethers' default depth of one
confirmation; the `confirmations` field of the construction-time config is
never consulted. -/
theorem C1_confirmed_at_default_depth (config : EthereumConfig) (chain : ChainEnv) :
    (∀ (options : MintOptions) (r : TransactionResult),
      (LicenseContract.mintLicense config chain options).result = Except.ok r →
      r.status = TxStatus.confirmed ∧
      (LicenseContract.mintLicense config chain options).waitDepth = some ethersWaitDefault) ∧
    (∀ (fromAddr toAddr : String) (tokenId : Nat) (r : TransactionResult),
      (LicenseContract.transferLicense config chain fromAddr toAddr tokenId).result
        = Except.ok r →
      r.status = TxStatus.confirmed ∧
      (LicenseContract.transferLicense config chain fromAddr toAddr tokenId).waitDepth
        = some ethersWaitDefault) ∧
    (∀ (tokenId : Nat) (r : TransactionResult),
      (LicenseContract.revokeLicense config chain tokenId).result = Except.ok r →
      r.status = TxStatus.confirmed ∧
      (LicenseContract.revokeLicense config chain tokenId).waitDepth
        = some ethersWaitDefault) ∧
    (∀ (licenses : List BatchMintOptions) (r : TransactionResult),
      (LicenseContract.batchMintLicenses config chain licenses).result = Except.ok r →
      r.status = TxStatus.confirmed ∧
      (LicenseContract.batchMintLicenses config chain licenses).waitDepth
        = some ethersWaitDefault) ∧
    (∀ (role account : String) (r : TransactionResult),
      (LicenseContract.grantRole config chain role account).result = Except.ok r →
      r.status = TxStatus.confirmed ∧
      (LicenseContract.grantRole config chain role account).waitDepth
        = some ethersWaitDefault) ∧
    (∀ (role account : String) (r : TransactionResult),
      (LicenseContract.revokeRole config chain role account).result = Except.ok r →
      r.status = TxStatus.confirmed ∧
      (LicenseContract.revokeRole config chain role account).waitDepth
        = some ethersWaitDefault) ∧
    (∀ r : TransactionResult,
      (LicenseContract.pause config chain).result = Except.ok r →
      r.status = TxStatus.confirmed ∧
      (LicenseContract.pause config chain).waitDepth = some ethersWaitDefault) ∧
    (∀ r : TransactionResult,
      (LicenseContract.unpause config chain).result = Except.ok r →
      r.status = TxStatus.confirmed ∧
      (LicenseContract.unpause config chain).waitDepth = some ethersWaitDefault) := by
  cases hs : chain.send { gasLimit := config.gasLimit, gasPrice := config.gasPrice } with
  | error e =>
    refine ⟨?_, ?_, ?_, ?_, ?_, ?_, ?_, ?_⟩ <;>
      · intros
        rename_i h
        simp [LicenseContract.mintLicense, LicenseContract.transferLicense,
          LicenseContract.revokeLicense, LicenseContract.batchMintLicenses,
          LicenseContract.grantRole, LicenseContract.revokeRole,
          LicenseContract.pause, LicenseContract.unpause, hs] at h
  | ok tx =>
    cases hw : chain.wait ethersWaitDefault with
    | error e =>
      refine ⟨?_, ?_, ?_, ?_, ?_, ?_, ?_, ?_⟩ <;>
        · intros
          rename_i h
          simp [LicenseContract.mintLicense, LicenseContract.transferLicense,
            LicenseContract.revokeLicense, LicenseContract.batchMintLicenses,
            LicenseContract.grantRole, LicenseContract.revokeRole,
            LicenseContract.pause, LicenseContract.unpause, hs, hw] at h
    | ok receipt =>
      refine ⟨?_, ?_, ?_, ?_, ?_, ?_, ?_, ?_⟩ <;>
        · intros
          rename_i h
          simp only [LicenseContract.mintLicense, LicenseContract.transferLicense,
            LicenseContract.revokeLicense, LicenseContract.batchMintLicenses,
            LicenseContract.grantRole, LicenseContract.revokeRole,
            LicenseContract.pause, LicenseContract.unpause, hs, hw,
            Except.ok.injEq] at h ⊢
          subst h
          exact ⟨rfl, trivial⟩

/-- C1 witness: a concrete successful mint under a config demanding 5
confirmations returns `'confirmed'` while the wait was requested at depth 1. -/
theorem C1_witness :
    (LicenseContract.mintLicense { network := "mainnet", confirmations := some 5 }
      { send := fun _ => Except.ok ⟨"0xabc"⟩,
        wait := fun _ => Except.ok { blockNumber := 100, gasUsed := 21000 } }
      { toAddr := "0xd", tokenId := 1, metadata := ⟨"App", "1.0.0", [], none, none⟩ }).result
      = Except.ok { hash := "0xabc", blockNumber := 100, gasUsed := "21000",
                    status := TxStatus.confirmed } ∧
    TxStatus.confirmed = TxStatus.confirmed ∧
    (LicenseContract.mintLicense { network := "mainnet", confirmations := some 5 }
      { send := fun _ => Except.ok ⟨"0xabc"⟩,
        wait := fun _ => Except.ok { blockNumber := 100, gasUsed := 21000 } }
      { toAddr := "0xd", tokenId := 1, metadata := ⟨"App", "1.0.0", [], none, none⟩ }).waitDepth
      = some ethersWaitDefault := by
  have h := (C1_confirmed_at_default_depth { network := "mainnet", confirmations := some 5 }
    { send := fun _ => Except.ok ⟨"0xabc"⟩,
      wait := fun _ => Except.ok { blockNumber := 100, gasUsed := 21000 } }).1
    { toAddr := "0xd", tokenId := 1, metadata := ⟨"App", "1.0.0", [], none, none⟩ }
    { hash := "0xabc", blockNumber := 100, gasUsed := "21000", status := TxStatus.confirmed }
    rfl
  exact ⟨rfl, h.1 ▸ rfl, h.2⟩

/-- C9: whenever submission and the receipt wait both resolve, every mutating
facade method returns status `'confirmed'` unconditionally, regardless of the
receipt's own on-chain `status` flag — `'pending'` and `'failed'` are never
produced — while the unused helper `parseTransactionReceipt` is the one place
that would map a reverted receipt to `'failed'`. -/
theorem C9_confirmed_even_on_reverted_receipt (config : EthereumConfig) (chain : ChainEnv)
    (tx : EthersTxResponse) (receipt : EthersReceipt)
    (hs : chain.send { gasLimit := config.gasLimit, gasPrice := config.gasPrice }
      = Except.ok tx)
    (hw : chain.wait ethersWaitDefault = Except.ok receipt) :
    (∀ options : MintOptions, (LicenseContract.mintLicense config chain options).result
      = Except.ok { hash := tx.hash, blockNumber := receipt.blockNumber,
                    gasUsed := natToString receipt.gasUsed, status := TxStatus.confirmed }) ∧
    (∀ (fromAddr toAddr : String) (tokenId : Nat),
      (LicenseContract.transferLicense config chain fromAddr toAddr tokenId).result
      = Except.ok { hash := tx.hash, blockNumber := receipt.blockNumber,
                    gasUsed := natToString receipt.gasUsed, status := TxStatus.confirmed }) ∧
    (∀ tokenId : Nat, (LicenseContract.revokeLicense config chain tokenId).result
      = Except.ok { hash := tx.hash, blockNumber := receipt.blockNumber,
                    gasUsed := natToString receipt.gasUsed, status := TxStatus.confirmed }) ∧
    (∀ licenses : List BatchMintOptions,
      (LicenseContract.batchMintLicenses config chain licenses).result
      = Except.ok { hash := tx.hash, blockNumber := receipt.blockNumber,
                    gasUsed := natToString receipt.gasUsed, status := TxStatus.confirmed }) ∧
    (∀ role account : String, (LicenseContract.grantRole config chain role account).result
      = Except.ok { hash := tx.hash, blockNumber := receipt.blockNumber,
                    gasUsed := natToString receipt.gasUsed, status := TxStatus.confirmed }) ∧
    (∀ role account : String, (LicenseContract.revokeRole config chain role account).result
      = Except.ok { hash := tx.hash, blockNumber := receipt.blockNumber,
                    gasUsed := natToString receipt.gasUsed, status := TxStatus.confirmed }) ∧
    ((LicenseContract.pause config chain).result
      = Except.ok { hash := tx.hash, blockNumber := receipt.blockNumber,
                    gasUsed := natToString receipt.gasUsed, status := TxStatus.confirmed }) ∧
    ((LicenseContract.unpause config chain).result
      = Except.ok { hash := tx.hash, blockNumber := receipt.blockNumber,
                    gasUsed := natToString receipt.gasUsed, status := TxStatus.confirmed }) ∧
    (receipt.status ≠ 1 → (parseTransactionReceipt receipt).status = TxStatus.failed) := by
  refine ⟨?_, ?_, ?_, ?_, ?_, ?_, ?_, ?_, ?_⟩
  · intro options
    simp [LicenseContract.mintLicense, hs, hw]
  · intro a b c
    simp [LicenseContract.transferLicense, hs, hw]
  · intro a
    simp [LicenseContract.revokeLicense, hs, hw]
  · intro ls
    simp [LicenseContract.batchMintLicenses, hs, hw]
  · intro a b
    simp [LicenseContract.grantRole, hs, hw]
  · intro a b
    simp [LicenseContract.revokeRole, hs, hw]
  · simp [LicenseContract.pause, hs, hw]
  · simp [LicenseContract.unpause, hs, hw]
  · intro hst
    simp [parseTransactionReceipt, hst]

/-- C9 witness: a receipt whose on-chain status flag is 0 (reverted) still
yields a `'confirmed'` result from `mintLicense`, although
`parseTransactionReceipt` would classify the very same receipt as
`'failed'`. -/
theorem C9_witness :
    (LicenseContract.mintLicense { network := "mainnet" }
      { send := fun _ => Except.ok ⟨"0xh"⟩,
        wait := fun _ => Except.ok { blockNumber := 7, gasUsed := 3, status := 0 } }
      { toAddr := "0xa", tokenId := 1, metadata := ⟨"App", "1.0.0", [], none, none⟩ }).result
      = Except.ok { hash := "0xh", blockNumber := 7, gasUsed := "3",
                    status := TxStatus.confirmed } ∧
    (parseTransactionReceipt { blockNumber := 7, gasUsed := 3, status := 0 }).status
      = TxStatus.failed := by
  have h := C9_confirmed_even_on_reverted_receipt { network := "mainnet" }
    { send := fun _ => Except.ok ⟨"0xh"⟩,
      wait := fun _ => Except.ok { blockNumber := 7, gasUsed := 3, status := 0 } }
    ⟨"0xh"⟩ { blockNumber := 7, gasUsed := 3, status := 0 } rfl rfl
  exact ⟨h.1 { toAddr := "0xa", tokenId := 1, metadata := ⟨"App", "1.0.0", [], none, none⟩ },
    h.2.2.2.2.2.2.2.2 (by decide)⟩

/-- C8: serializing a `LicenseMetadata` value with `JSON.stringify` and
parsing the canonical string back with `JSON.parse` yields a JSON object
equal in all fields to the original, for every metadata whose (optional)
custom data is a well-formed JSON mapping — covering empty, single and
multi-entry feature lists, with or without `expiresAt` and `customData`. -/
theorem C8_metadata_roundtrip (m : LicenseMetadata)
    (h : (LicenseMetadata.toJson m).wf = true) :
    jsonParse (jsonStringify (LicenseMetadata.toJson m)) = some (LicenseMetadata.toJson m) :=
  jsonParse_roundTrip _ h

/-- C8 witness: concrete round trips for empty features; single feature with
expiry; and multi-entry features with expiry, custom data, and an escaped
quote in the software name. -/
theorem C8_witness :
    jsonParse (jsonStringify (LicenseMetadata.toJson ⟨"App", "1.0.0", [], none, none⟩))
      = some (LicenseMetadata.toJson ⟨"App", "1.0.0", [], none, none⟩) ∧
    jsonParse (jsonStringify (LicenseMetadata.toJson
        ⟨"App", "2.0", ["basic"], some 1700000000, none⟩))
      = some (LicenseMetadata.toJson ⟨"App", "2.0", ["basic"], some 1700000000, none⟩) ∧
    jsonParse (jsonStringify (LicenseMetadata.toJson
        ⟨"My \"App\"", "3.1.4", ["a", "b", "c"], some 1700000000,
          some [("tier", Json.str "gold"), ("seats", Json.num 5)]⟩))
      = some (LicenseMetadata.toJson
        ⟨"My \"App\"", "3.1.4", ["a", "b", "c"], some 1700000000,
          some [("tier", Json.str "gold"), ("seats", Json.num 5)]⟩) :=
  ⟨C8_metadata_roundtrip _ rfl, C8_metadata_roundtrip _ rfl, C8_metadata_roundtrip _ rfl⟩
